import Mathlib

/-!
# lsmi-monterey: the dual-mode event decoder

A shallow embedding of `src/lsmi-monterey.c` (the userspace driver for the
Monterey MK-9500 / K617W reversible keyboard) and theorems about it.

Conventions of the embedding

* C `int`, `time_t` and the fields of `struct input_event` are `Int`; no
  operation of the decoder wraps for values in the ranges the driver keeps
  (octave 3..7, pages 0..3, key indices 0..36).  The one unsigned comparison
  of the source (`x >= elementsof (map)`, which converts `x` to `size_t`) is
  written with an explicit `% 2 ^ 64`, and the one narrowing assignment
  (`iev.code = scancode`, an `int` stored in a 16-bit field) with an explicit
  `% 65536`.
* A read of `keymap` or `nummap` outside the array has no defined result in C;
  the model returns `none` there.
* `printf` and `fprintf` diagnostics are not modelled.
* The outputs of the decoder are the calls of the two emitters, `send_key`
  (the uinput passthrough) and `send_event` (the ALSA sequencer), in order.

The mapping parser of `src/lsmi-mouse.c` is embedded in the namespace `Mouse`.
-/

namespace Monterey

/-! ## Constants of `linux/input.h` used by the driver -/

def EV_SYN : Int := 0
def EV_KEY : Int := 1
def EV_MSC : Int := 4
def SYN_REPORT : Int := 0
def MSC_SCAN : Int := 4

def KEY_1 : Int := 2
def KEY_2 : Int := 3
def KEY_3 : Int := 4
def KEY_4 : Int := 5
def KEY_5 : Int := 6
def KEY_6 : Int := 7
def KEY_7 : Int := 8
def KEY_8 : Int := 9
def KEY_9 : Int := 10
def KEY_0 : Int := 11
def KEY_MINUS : Int := 12
def KEY_EQUAL : Int := 13
def KEY_Q : Int := 16
def KEY_W : Int := 17
def KEY_E : Int := 18
def KEY_R : Int := 19
def KEY_T : Int := 20
def KEY_Y : Int := 21
def KEY_U : Int := 22
def KEY_I : Int := 23
def KEY_O : Int := 24
def KEY_P : Int := 25
def KEY_LEFTBRACE : Int := 26
def KEY_RIGHTBRACE : Int := 27
def KEY_ENTER : Int := 28
def KEY_A : Int := 30
def KEY_S : Int := 31
def KEY_D : Int := 32
def KEY_F : Int := 33
def KEY_G : Int := 34
def KEY_H : Int := 35
def KEY_J : Int := 36
def KEY_K : Int := 37
def KEY_L : Int := 38
def KEY_SEMICOLON : Int := 39
def KEY_APOSTROPHE : Int := 40
def KEY_BACKSLASH : Int := 43
def KEY_Z : Int := 44
def KEY_X : Int := 45
def KEY_C : Int := 46
def KEY_V : Int := 47
def KEY_B : Int := 48
def KEY_N : Int := 49
def KEY_M : Int := 50
def KEY_COMMA : Int := 51
def KEY_DOT : Int := 52
def KEY_F1 : Int := 59
def KEY_F2 : Int := 60
def KEY_F3 : Int := 61
def KEY_F4 : Int := 62
def KEY_F5 : Int := 63
def KEY_F6 : Int := 64
def KEY_F7 : Int := 65
def KEY_F8 : Int := 66
def KEY_F9 : Int := 67
def KEY_KP4 : Int := 75
def KEY_KP6 : Int := 77
def KEY_MUTE : Int := 113
def KEY_MIN_INTERESTING : Int := KEY_MUTE

/-! ## Macros and constants of the source file -/

/-- The macro `min(x,min)` of the source: `(x) < (min) ? (min) : (x)`. -/
def min (x m : Int) : Int := if x < m then m else x

/-- The macro `max(x,max)` of the source: `(x) > (max) ? (max) : (x)`. -/
def max (x m : Int) : Int := if x > m then m else x

/-- The window of the quaver key, in seconds. -/
def FUNCTION_TIMEOUT : Int := 2

/-- The idle timeout of a pending key, in microseconds. -/
def KEY_TIMEOUT : Int := 15000

def octave_min : Int := 3
def octave_max : Int := 7

/-! ## Records -/

/-- The `struct timeval` of an event. -/
structure timeval where
  tv_sec : Int
  tv_usec : Int
deriving DecidableEq, Repr

/-- The `struct input_event` of the kernel event layer. -/
structure input_event where
  time : timeval
  type : Int
  code : Int
  value : Int
deriving DecidableEq, Repr

/-! ## Key and velocity tables -/

/-- Valid key designators, in order. -/
def keylist : List Int :=
  [ KEY_A, KEY_B, KEY_C, KEY_D, KEY_E, KEY_F, KEY_G, KEY_H, KEY_I, KEY_J,
    KEY_K, KEY_L, KEY_M, KEY_N, KEY_O, KEY_P, KEY_Q, KEY_R, KEY_S, KEY_T,
    KEY_U, KEY_V, KEY_W, KEY_X, KEY_Y, KEY_Z, KEY_8, KEY_9, KEY_MINUS,
    KEY_EQUAL, KEY_BACKSLASH, KEY_LEFTBRACE, KEY_RIGHTBRACE, KEY_SEMICOLON,
    KEY_APOSTROPHE, KEY_COMMA, KEY_DOT ]

/-- Valid velocity values, in order. -/
def numlist : List Int :=
  [ KEY_0, KEY_1, KEY_2, KEY_3, KEY_4, KEY_5, KEY_6, KEY_7 ]

/-- The second and third loops of `init_maps`: `map[ list[i] ] = i` for
`i = start, start + 1, ...` over the entries of `list`. -/
def fill_map : List Int → Nat → List Int → List Int
  | [], _, map => map
  | k :: rest, i, map => fill_map rest (i + 1) (map.set k.toNat (i : Int))

/-- The array `keymap` after `init_maps`: `KEY_MIN_INTERESTING + 1` entries,
all set to -1 and then filled from `keylist`. -/
def keymap : List Int :=
  fill_map keylist 0 (List.replicate (KEY_MIN_INTERESTING + 1).toNat (-1))

/-- The array `nummap` after `init_maps`: `KEY_MINUS + 1` entries, all set to
-1 and then filled from `numlist`. -/
def nummap : List Int :=
  fill_map numlist 0 (List.replicate (KEY_MINUS + 1).toNat (-1))

/-- The read `map[ x ]`; there is no result outside the array. -/
def read (map : List Int) (x : Int) : Option Int :=
  if x < 0 then none else map[x.toNat]?

/-- The conversion of an `int` to `size_t` made by the comparison with
`elementsof`. -/
def to_size_t (x : Int) : Int := x % 2 ^ 64

/-- Is `x` a valid velocity byte? -/
def isnum (x : Int) : Bool :=
  if to_size_t x ≥ (nummap.length : Int) then false
  else
    match read nummap x with
    | some v => decide (v ≥ 0)
    | none => false

/-- Is `x` a valid key byte? -/
def iskey (x : Int) : Bool :=
  if to_size_t x ≥ (keymap.length : Int) then false
  else
    match read keymap x with
    | some v => decide (v ≥ 0)
    | none => false

/-- The position of a code in `keylist`: the index of a music key. -/
def keyIndex (code : Int) : Int := (keylist.indexOf code : Nat)

/-- The position of a code in `numlist`: the level of a velocity symbol. -/
def velocityLevel (code : Int) : Int := (numlist.indexOf code : Nat)

/-! ## MIDI state and function keys -/

/-- The `enum prog_modes` of the source. -/
inductive prog_modes where
  | MUSIC
  | PATCH
  | BANK
  | CHANNEL
deriving DecidableEq, Repr

/-- The global MIDI state of the driver. -/
structure MidiState where
  channel : Int
  patch_page : Int
  bank_page : Int
  patch : Int
  bank : Int
  octave : Int
  prog_mode : prog_modes
deriving DecidableEq, Repr

/-- The MIDI state at program start (channel 0 unless `-c` is given). -/
def MidiState.init : MidiState :=
  { channel := 0, patch_page := 0, bank_page := 0, patch := 0, bank := 0,
    octave := 5, prog_mode := prog_modes.MUSIC }

/-- Process function key press, returns 0 if `key` is not a function key.
The result is the return value and the MIDI state after the call. -/
def func_key (g : MidiState) (key : Int) : Int × MidiState :=
  if key = KEY_F1 then (1, { g with patch_page := 0, prog_mode := prog_modes.PATCH })
  else if key = KEY_F2 then (1, { g with patch_page := 1, prog_mode := prog_modes.PATCH })
  else if key = KEY_F3 then (1, { g with patch_page := 2, prog_mode := prog_modes.PATCH })
  else if key = KEY_F4 then (1, { g with patch_page := 3, prog_mode := prog_modes.PATCH })
  else if key = KEY_F5 then (1, { g with bank_page := 0, prog_mode := prog_modes.BANK })
  else if key = KEY_F6 then (1, { g with bank_page := 1, prog_mode := prog_modes.BANK })
  else if key = KEY_F7 then (1, { g with bank_page := 2, prog_mode := prog_modes.BANK })
  else if key = KEY_F8 then (1, { g with bank_page := 3, prog_mode := prog_modes.BANK })
  else if key = KEY_KP4 then
    if g.prog_mode = prog_modes.CHANNEL then
      (1, { g with channel := min (g.channel - 1) 0 })
    else
      (1, { g with octave := min (g.octave - 1) octave_min })
  else if key = KEY_KP6 then
    if g.prog_mode = prog_modes.CHANNEL then
      (1, { g with channel := max (g.channel + 1) 15 })
    else
      (1, { g with octave := max (g.octave + 1) octave_max })
  else if key = KEY_ENTER then (1, { g with prog_mode := prog_modes.CHANNEL })
  else (0, g)

/-! ## The two emitters -/

/-- Pass an input event to uinput (with `STRIP_REPEATS` defined, as in the
source).  The result is the list of the records written, in order, and the
event as the call leaves it (the call rewrites `ev->value` in place). -/
def send_key (ev : input_event) : List input_event × input_event :=
  let sc : input_event :=
    { type := EV_MSC, code := MSC_SCAN, value := ev.code, time := ev.time }
  let ev1 : input_event := { ev with value := if ev.value = 2 then 1 else ev.value }
  let sc1 : input_event := { sc with type := EV_SYN, code := SYN_REPORT, value := 0 }
  ([sc, ev1, sc1], ev1)

/-- The sequencer event built by one of the three `snd_seq_ev_set_*` calls of
the decoder, with the arguments of the call. -/
inductive snd_seq_event where
  | pgmchange (channel value : Int)
  | controller (channel param value : Int)
  | noteon (channel note velocity : Int)
deriving DecidableEq, Repr

/-- One call of an emitter. -/
inductive Action where
  | send_key (ev : input_event)
  | send_event (ev : snd_seq_event)
deriving DecidableEq, Repr

/-! ## The decoder of `main` -/

/-- The values of the local `expecting`: `KEY` (0) and `VELOCITY` (1). -/
inductive Expecting where
  | KEY
  | VELOCITY
deriving DecidableEq, Repr

/-- The state the decoder keeps between events: the global MIDI state and the
locals `expecting`, `prev_iev` and `quaver_sec` of `main`. -/
structure State where
  midi : MidiState
  expecting : Expecting
  prev_iev : input_event
  quaver_sec : Int
deriving DecidableEq, Repr

/-- The state when the event loop is entered; `prev_iev` is not initialised by
the source and is a parameter here. -/
def State.init (prev : input_event) : State :=
  { midi := MidiState.init, expecting := Expecting.KEY, prev_iev := prev,
    quaver_sec := 0 }

/-- How one pass through `switch ( expecting )` ends: at a `break`, or at a
`goto loop`. -/
inductive Flow where
  | done
  | goto_loop
deriving DecidableEq, Repr

/-- The body of `case KEY:` (lines 779-807). -/
def case_KEY (s : State) (iev : input_event) : State × List Action :=
  if iskey iev.code then
    ({ s with prev_iev := iev, expecting := Expecting.VELOCITY }, [])
  else if iev.code = KEY_F9 then
    ({ s with quaver_sec := iev.time.tv_sec,
              midi := { s.midi with prog_mode := prog_modes.MUSIC } }, [])
  else if iev.time.tv_sec - s.quaver_sec ≤ FUNCTION_TIMEOUT then
    let r := func_key s.midi iev.code
    if r.1 ≠ 0 then
      ({ s with midi := r.2, quaver_sec := iev.time.tv_sec }, [])
    else
      ({ s with midi := r.2 }, [Action.send_key iev])
  else
    (s, [Action.send_key iev])

/-- The resolution of a key and velocity pair (lines 821-876): the inner
`switch ( prog_mode )`, `send_event`, `prev_iev = iev`, `expecting = KEY`. -/
def resolve (no_velocity : Int) (s : State) (iev : input_event) :
    Option (State × List Action) :=
  match s.midi.prog_mode with
  | prog_modes.PATCH =>
    (read keymap s.prev_iev.code).map fun k =>
      let patch := max k 31 + 32 * s.midi.patch_page
      ({ s with midi := { s.midi with patch := patch, prog_mode := prog_modes.MUSIC },
                prev_iev := iev, expecting := Expecting.KEY },
       [Action.send_event (snd_seq_event.pgmchange s.midi.channel patch)])
  | prog_modes.BANK =>
    (read keymap s.prev_iev.code).map fun k =>
      let bank := max k 31 + 32 * s.midi.bank_page
      ({ s with midi := { s.midi with bank := bank, prog_mode := prog_modes.MUSIC },
                prev_iev := iev, expecting := Expecting.KEY },
       [Action.send_event (snd_seq_event.controller s.midi.channel 0 bank)])
  | _ =>
    (read keymap s.prev_iev.code).bind fun k =>
    (read nummap iev.code).map fun n =>
      let note := (k - 19) + 12 * s.midi.octave
      let velocity := n
      let velocity := if velocity = 0 then 0 else Int.tdiv 127 velocity
      let velocity := if no_velocity ≠ 0 then 64 else velocity
      ({ s with prev_iev := iev, expecting := Expecting.KEY },
       [Action.send_event (snd_seq_event.noteon s.midi.channel note velocity)])

/-- The body of `case VELOCITY:` (lines 808-885), after which control either
leaves the switch or jumps back to the label `loop`. -/
def case_VELOCITY (no_velocity : Int) (s : State) (iev : input_event) :
    Option (State × List Action × Flow) :=
  let s := { s with expecting := Expecting.KEY }
  if iskey iev.code then
    some ({ s with prev_iev := (send_key s.prev_iev).2 },
          [Action.send_key s.prev_iev], Flow.goto_loop)
  else if isnum iev.code then
    (resolve no_velocity s iev).map fun r => (r.1, r.2, Flow.done)
  else
    some ({ s with prev_iev := (send_key s.prev_iev).2 },
          [Action.send_key s.prev_iev], Flow.goto_loop)

/-- One pass through `switch ( expecting )`. -/
def switch_expecting (no_velocity : Int) (s : State) (iev : input_event) :
    Option (State × List Action × Flow) :=
  match s.expecting with
  | Expecting.KEY => some ((case_KEY s iev).1, (case_KEY s iev).2, Flow.done)
  | Expecting.VELOCITY => case_VELOCITY no_velocity s iev

/-- The code from the label `loop` to the end of the switch, for one assembled
key event: passes through the switch are repeated while they end in
`goto loop`.  The first argument bounds the number of passes; the result is
`none` when the bound is reached or a table is read outside its bounds. -/
def loop : Nat → Int → State → input_event → Option (State × List Action)
  | 0, _, _, _ => none
  | fuel + 1, no_velocity, s, iev =>
    match switch_expecting no_velocity s iev with
    | none => none
    | some (s1, acts, Flow.done) => some (s1, acts)
    | some (s1, acts, Flow.goto_loop) =>
      (loop fuel no_velocity s1 iev).map fun r => (r.1, acts ++ r.2)

/-- The branch of the event loop taken when `select` times out
(lines 891-901). -/
def select_timeout (s : State) : State × List Action :=
  match s.expecting with
  | Expecting.VELOCITY =>
    ({ s with expecting := Expecting.KEY, prev_iev := (send_key s.prev_iev).2 },
     [Action.send_key s.prev_iev])
  | Expecting.KEY => (s, [])

/-- What the decoder is given in one turn of the event loop: an assembled key
event, or the expiry of the `select` timeout. -/
inductive Input where
  | event (iev : input_event)
  | timeout
deriving DecidableEq, Repr

/-- The decoder on one input. -/
def step (fuel : Nat) (no_velocity : Int) (s : State) : Input → Option (State × List Action)
  | Input.event iev => loop fuel no_velocity s iev
  | Input.timeout => some (select_timeout s)

/-- The decoder on a sequence of inputs, with the emitter calls of all of them
in order. -/
def run (fuel : Nat) (no_velocity : Int) : State → List Input → Option (State × List Action)
  | s, [] => some (s, [])
  | s, i :: rest =>
    (step fuel no_velocity s i).bind fun r =>
      (run fuel no_velocity r.1 rest).map fun q => (q.1, r.2 ++ q.2)

/-- A key event with the given code, phase value and timestamp. -/
def key_event (code value sec usec : Int) : input_event :=
  { time := { tv_sec := sec, tv_usec := usec }, type := EV_KEY, code := code, value := value }

/-- The page-select keys I..VIII of the musical side, in order. -/
def page_select_keys : List Int :=
  [ KEY_F1, KEY_F2, KEY_F3, KEY_F4, KEY_F5, KEY_F6, KEY_F7, KEY_F8 ]

/-- The code of page-select key `n`, for `n` in 1..8. -/
def page_select (n : Nat) : Int := page_select_keys.getD (n - 1) 0

/-- The function keys other than the quaver key: the page-select keys, the
two arrows and enter (the cases of `func_key`). -/
def function_keys : List Int :=
  page_select_keys ++ [ KEY_KP4, KEY_KP6, KEY_ENTER ]

/-- The time from timestamp `a` to timestamp `b`, in microseconds. -/
def elapsed_usec (a b : timeval) : Int :=
  (b.tv_sec - a.tv_sec) * 1000000 + (b.tv_usec - a.tv_usec)

/-- A state in which the key `code` is pending, with the given MIDI state. -/
def pending_state (g : MidiState) (code : Int) : State :=
  { midi := g, expecting := Expecting.VELOCITY, prev_iev := key_event code 1 5 0,
    quaver_sec := 0 }

/-- Following the words of the specification for a non-velocity symbol that
arrives while a key is pending: flush `pending` as Passthrough, then reprocess
the current event from AwaitingKey. -/
def spec_flush_then_reprocess (fuel : Nat) (no_velocity : Int) (s : State)
    (e : input_event) : Option (State × List Action) :=
  let awaitingKey : State :=
    { s with expecting := Expecting.KEY, prev_iev := (send_key s.prev_iev).2 }
  (loop fuel no_velocity awaitingKey e).map fun r =>
    (r.1, Action.send_key s.prev_iev :: r.2)

/-- The two arrow keys of the musical side: left (keypad 4) and right
(keypad 6). -/
def arrow_keys : List Int := [ KEY_KP4, KEY_KP6 ]

/-- A timestamp whose microseconds field is inside one second. -/
def timeval.valid (t : timeval) : Prop := 0 ≤ t.tv_usec ∧ t.tv_usec < 1000000

instance timeval.valid_decidable (t : timeval) : Decidable t.valid := by
  unfold timeval.valid
  infer_instance

/-- The octave after an arrow key when `prog_mode` is not `CHANNEL`, in the
words of `func_key`. -/
def octave_step (code o : Int) : Int :=
  if code = KEY_KP4 then min (o - 1) octave_min else max (o + 1) octave_max

/-- The ranges of the MIDI state given by the data model. -/
def MidiState.in_range (g : MidiState) : Prop :=
  (0 ≤ g.channel ∧ g.channel ≤ 15) ∧
  (octave_min ≤ g.octave ∧ g.octave ≤ octave_max) ∧
  (0 ≤ g.patch_page ∧ g.patch_page ≤ 3) ∧
  (0 ≤ g.bank_page ∧ g.bank_page ≤ 3) ∧
  (0 ≤ g.patch ∧ g.patch ≤ 127) ∧
  (0 ≤ g.bank ∧ g.bank ≤ 127)

instance MidiState.in_range_decidable (g : MidiState) : Decidable g.in_range := by
  unfold MidiState.in_range
  infer_instance

/-- A decoder state as the data model describes it: the MIDI state is in
range and an event buffered while a velocity byte is expected passed
`iskey`. -/
def State.well_formed (s : State) : Prop :=
  s.midi.in_range ∧ (s.expecting = Expecting.VELOCITY → iskey s.prev_iev.code = true)

instance State.well_formed_decidable (s : State) : Decidable s.well_formed := by
  unfold State.well_formed
  infer_instance

/-- A state in which a key is expected, with the given MIDI state. -/
def key_state (g : MidiState) : State :=
  { midi := g, expecting := Expecting.KEY, prev_iev := key_event 0 0 0 0, quaver_sec := 0 }

/-- A state in `PATCH` mode on patch page `page` in which the event `P` is
pending. -/
def patch_state (g : MidiState) (page : Int) (P : input_event) : State :=
  { midi := { g with prog_mode := prog_modes.PATCH, patch_page := page },
    expecting := Expecting.VELOCITY, prev_iev := P, quaver_sec := 0 }

/-- A state in `BANK` mode on bank page `page` in which the event `P` is
pending. -/
def bank_state (g : MidiState) (page : Int) (P : input_event) : State :=
  { midi := { g with prog_mode := prog_modes.BANK, bank_page := page },
    expecting := Expecting.VELOCITY, prev_iev := P, quaver_sec := 0 }

/-- On patch page `page`, the pending key `P` resolved by the velocity byte
`V` sends exactly one program change, with program `v`. -/
def selects_program (nv : Int) (g : MidiState) (V : input_event) (page : Int)
    (P : input_event) (v : Int) : Prop :=
  ∃ s1, loop 1 nv (patch_state g page P) V =
    some (s1, [Action.send_event (snd_seq_event.pgmchange g.channel v)])

/-- On bank page `page`, the pending key `P` resolved by the velocity byte
`V` sends exactly one control change of controller 0, with value `v`. -/
def selects_bank (nv : Int) (g : MidiState) (V : input_event) (page : Int)
    (P : input_event) (v : Int) : Prop :=
  ∃ s1, loop 1 nv (bank_state g page P) V =
    some (s1, [Action.send_event (snd_seq_event.controller g.channel 0 v)])

/-- The buffered event of a state in which a velocity byte is expected passed
`iskey`. -/
def State.pending_ok (s : State) : Prop :=
  s.expecting = Expecting.VELOCITY → iskey s.prev_iev.code = true

instance State.pending_ok_decidable (s : State) : Decidable s.pending_ok := by
  unfold State.pending_ok
  infer_instance

/-- The events the decoder holds back: the buffered event while a velocity
byte is expected, none while a key is expected. -/
def State.pending (s : State) : List input_event :=
  match s.expecting with
  | Expecting.VELOCITY => [s.prev_iev]
  | Expecting.KEY => []

/-- The events handed to `send_key`, in the order of the calls. -/
def passthroughs (acts : List Action) : List input_event :=
  acts.filterMap fun a =>
    match a with
    | Action.send_key ev => some ev
    | Action.send_event _ => none

/-- The sequencer events handed to `send_event`, in the order of the calls. -/
def midi_messages (acts : List Action) : List snd_seq_event :=
  acts.filterMap fun a =>
    match a with
    | Action.send_key _ => none
    | Action.send_event ev => some ev

/-- The key events of a sequence of inputs, in arrival order. -/
def input_events (inputs : List Input) : List input_event :=
  inputs.filterMap fun i =>
    match i with
    | Input.event e => some e
    | Input.timeout => none

/-! ## Event assembly and the wait of the event loop -/

/-- The conversion of an `int` to the 16-bit `code` field of
`struct input_event`. -/
def u16 (x : Int) : Int := x % 65536

/-- The locals `key`, `value` and `scancode` of `main`. -/
structure Assembler where
  key : Int
  value : Int
  scancode : Int
deriving DecidableEq, Repr

/-- The locals after `scancode = value = key = -1`. -/
def Assembler.reset : Assembler := { key := -1, value := -1, scancode := -1 }

/-- The locals when the event loop is entered: the declaration
`int key, value, scancode = -1;` initialises `scancode` only, so the first
two are parameters. -/
def Assembler.init (key value : Int) : Assembler :=
  { key := key, value := value, scancode := -1 }

/-- The handling of one record read from the keyboard (lines 737-773): the
locals afterwards and, at a `SYN_REPORT`, the key event handed to the
decoder. -/
def assemble (a : Assembler) (iev : input_event) : Assembler × Option input_event :=
  if iev.type = EV_KEY then
    ({ a with key := iev.code, value := iev.value }, none)
  else if iev.type = EV_MSC then
    (if iev.code = MSC_SCAN then { a with scancode := iev.value } else a, none)
  else if iev.type = EV_SYN then
    if iev.code ≠ SYN_REPORT then (a, none)
    else
      (Assembler.reset,
       some (if a.key ≥ 0 then
               { iev with type := EV_KEY, code := u16 a.key, value := a.value }
             else
               { iev with type := EV_KEY, code := u16 a.scancode, value := 2 }))
  else (a, none)

/-- The records of a list handled one after the other: the locals afterwards
and the key events handed to the decoder, in order. -/
def feed (a : Assembler) (recs : List input_event) : Assembler × List input_event :=
  recs.foldl (fun st r => ((assemble st.1 r).1, st.2 ++ (assemble st.1 r).2.toList)) (a, [])

/-- The last record of type `EV_KEY` of a list. -/
def last_key_record (recs : List input_event) : Option input_event :=
  (recs.filter fun r => decide (r.type = EV_KEY)).getLast?

/-- The last record of type `EV_MSC` and code `MSC_SCAN` of a list. -/
def last_scan_record (recs : List input_event) : Option input_event :=
  (recs.filter fun r => decide (r.type = EV_MSC ∧ r.code = MSC_SCAN)).getLast?

/-- The key event the claim describes for a report `syn` that follows the
records `recs`: the code and value of the last `EV_KEY` record if there is
one, otherwise the last `MSC_SCAN` value (or the remembered one), cut to 16
bits, with value 2. -/
def spec_assembled (a : Assembler) (recs : List input_event) (syn : input_event) :
    input_event :=
  match last_key_record recs with
  | some k => { time := syn.time, type := EV_KEY, code := k.code, value := k.value }
  | none =>
    { time := syn.time, type := EV_KEY,
      code := u16 (match last_scan_record recs with
                   | some m => m.value
                   | none => a.scancode),
      value := 2 }

/-- The timeout argument of `select` (lines 711-715): a fresh `KEY_TIMEOUT`
while a velocity byte is expected, no timeout (`NULL`) otherwise. -/
def select_tv (s : State) : Option timeval :=
  if s.expecting ≠ Expecting.KEY then some { tv_sec := 0, tv_usec := KEY_TIMEOUT } else none

/-- The time left at `now` until `KEY_TIMEOUT` after the timestamp `pending`,
in microseconds. -/
def remaining_usec (pending now : timeval) : Int :=
  KEY_TIMEOUT - elapsed_usec pending now

/-- The state of the event loop: the decoder and the assembly locals. -/
structure MainState where
  dec : State
  asm : Assembler
deriving DecidableEq, Repr

/-- What `select` reports in one turn of the event loop, as far as the
decoder is concerned: the timeout expired, or a record can be read from the
keyboard. -/
inductive Ready where
  | timeout
  | record (r : input_event)
deriving DecidableEq, Repr

/-- One turn of the event loop (lines 701-903). -/
def main_turn (fuel : Nat) (no_velocity : Int) (m : MainState) :
    Ready → Option (MainState × List Action)
  | Ready.timeout =>
    some ({ m with dec := (select_timeout m.dec).1 }, (select_timeout m.dec).2)
  | Ready.record r =>
    match (assemble m.asm r).2 with
    | none => some ({ m with asm := (assemble m.asm r).1 }, [])
    | some iev =>
      (loop fuel no_velocity m.dec iev).map fun x =>
        ({ dec := x.1, asm := (assemble m.asm r).1 }, x.2)

/-- A record of the given type, code and value with its timestamp. -/
def record (type code value sec usec : Int) : input_event :=
  { time := { tv_sec := sec, tv_usec := usec }, type := type, code := code, value := value }

end Monterey

/-! # lsmi-mouse: the mapping argument

A shallow embedding of `parse_map` of `src/lsmi-mouse.c`.  The call of
`sscanf` is not modelled: its result, the number of items matched and the
values it stored, is the input of the model.  Messages written to `stderr`
are values of `Message`. -/

namespace Mouse

/-! ## Constants of `alsa/seq_event.h` used by the driver -/

def SND_SEQ_EVENT_NOTEON : Int := 6
def SND_SEQ_EVENT_CONTROLLER : Int := 10

/-- The `struct map_s` of the source: one button mapping. -/
structure map_s where
  ev_type : Int
  number : Int
  channel : Int
deriving DecidableEq, Repr

/-- The messages `parse_map` writes to `stderr`. -/
inductive Message where
  | applying_mapping
  | invalid_mapping
  | channel_range
  | number_range
deriving DecidableEq, Repr

/-- The result of `sscanf( s, "%1[cn]:%u:%u", t, &channel, &number )`: the
number of items matched, the type letter and the two unsigned numbers. -/
structure Scanned where
  items : Int
  t : Char
  channel : Int
  number : Int
deriving DecidableEq, Repr

/-- How a call of `parse_map` ends: with `exit( status )`, or by returning
with the mapping stored in `map[i]`; in both cases with the messages written
to `stderr`. -/
inductive Outcome where
  | exited (status : Int) (stderr : List Message)
  | returned (entry : map_s) (stderr : List Message)
deriving DecidableEq, Repr

/-- Parse user supplied mapping argument: `entry` is `map[i]` before the
call, `sc` what `sscanf` made of the argument. -/
def parse_map (entry : map_s) (sc : Scanned) : Outcome :=
  if sc.items ≠ 3 then
    Outcome.exited 1 [Message.applying_mapping, Message.invalid_mapping]
  else
    let entry := { entry with channel := sc.channel, number := sc.number }
    if entry.channel ≥ 1 ∧ entry.channel ≤ 16 then
      let entry := { entry with channel := entry.channel - 1 }
      let stderr :=
        if entry.channel > 127 then [Message.applying_mapping, Message.number_range]
        else [Message.applying_mapping]
      Outcome.returned
        { entry with ev_type := if sc.t = 'c' then SND_SEQ_EVENT_CONTROLLER
                                else SND_SEQ_EVENT_NOTEON }
        stderr
    else
      Outcome.exited 1 [Message.applying_mapping, Message.channel_range]

/-- The entry `map[1]` at program start: the middle button sends note 36 on
channel 0. -/
def map_1 : map_s := { ev_type := SND_SEQ_EVENT_NOTEON, number := 36, channel := 0 }

end Mouse

namespace Monterey

/-! ## Facts about the tables -/

theorem iskey_of_mem_keylist : ∀ x ∈ keylist, iskey x = true := by decide

theorem read_keymap_of_mem_keylist :
    ∀ x ∈ keylist, read keymap x = some (keyIndex x) := by decide

theorem keyIndex_range_of_mem_keylist :
    ∀ x ∈ keylist, 0 ≤ keyIndex x ∧ keyIndex x ≤ 36 := by decide

theorem isnum_of_mem_numlist : ∀ x ∈ numlist, isnum x = true := by decide

theorem iskey_of_mem_numlist : ∀ x ∈ numlist, iskey x = false := by decide

theorem read_nummap_of_mem_numlist :
    ∀ x ∈ numlist, read nummap x = some (velocityLevel x) := by decide

theorem velocityLevel_range_of_mem_numlist :
    ∀ x ∈ numlist, 0 ≤ velocityLevel x ∧ velocityLevel x ≤ 7 := by decide

/-! ## Facts about one pass of the decoder -/

/-- In `case KEY:` the switch is left after one pass. -/
theorem loop_KEY (n : Nat) (nv : Int) (s : State) (iev : input_event)
    (hs : s.expecting = Expecting.KEY) :
    loop (n + 1) nv s iev = some (case_KEY s iev) := by
  simp [loop, switch_expecting, hs]

/-- In `case VELOCITY:` a code that is not a velocity byte sends the pending
event and jumps back to `loop`, where `case KEY:` is selected. -/
theorem loop_VELOCITY_flush (n : Nat) (nv : Int) (s : State) (iev : input_event)
    (hs : s.expecting = Expecting.VELOCITY) (hnum : isnum iev.code = false) :
    loop (n + 2) nv s iev =
      some ((case_KEY { s with expecting := Expecting.KEY,
                               prev_iev := (send_key s.prev_iev).2 } iev).1,
            Action.send_key s.prev_iev ::
              (case_KEY { s with expecting := Expecting.KEY,
                                 prev_iev := (send_key s.prev_iev).2 } iev).2) := by
  by_cases hk : iskey iev.code = true
  · simp [loop, switch_expecting, case_VELOCITY, hs, hk]
  · simp [loop, switch_expecting, case_VELOCITY, hs, hk, hnum]

/-- In `case VELOCITY:` a velocity byte resolves the pending key. -/
theorem loop_VELOCITY_resolve (n : Nat) (nv : Int) (s : State) (iev : input_event)
    (hs : s.expecting = Expecting.VELOCITY) (hkey : iskey iev.code = false)
    (hnum : isnum iev.code = true) :
    loop (n + 1) nv s iev = resolve nv { s with expecting := Expecting.KEY } iev := by
  simp only [loop, switch_expecting, case_VELOCITY, hs, hkey, hnum]
  cases h : resolve nv { s with expecting := Expecting.KEY } iev <;> simp

/-- A key byte in `case KEY:` is buffered. -/
theorem case_KEY_of_iskey (s : State) (iev : input_event) (hk : iskey iev.code = true) :
    case_KEY s iev = ({ s with prev_iev := iev, expecting := Expecting.VELOCITY }, []) := by
  simp [case_KEY, hk]

/-- A velocity byte that follows a pending music key while `prog_mode` is
neither `PATCH` nor `BANK` produces one note-on. -/
theorem resolve_note (nv : Int) (s : State) (V : input_event) (m : prog_modes)
    (hm : s.midi.prog_mode = m) (hp : m ≠ prog_modes.PATCH) (hb : m ≠ prog_modes.BANK)
    (hP : s.prev_iev.code ∈ keylist) (hV : V.code ∈ numlist) :
    resolve nv s V =
      some ({ s with prev_iev := V, expecting := Expecting.KEY },
        [Action.send_event (snd_seq_event.noteon s.midi.channel
          ((keyIndex s.prev_iev.code - 19) + 12 * s.midi.octave)
          (if nv ≠ 0 then 64
           else if velocityLevel V.code = 0 then 0
           else Int.tdiv 127 (velocityLevel V.code)))]) := by
  have hk := read_keymap_of_mem_keylist _ hP
  have hn := read_nummap_of_mem_numlist _ hV
  cases m <;> simp_all [resolve]

/-- The macro `max` is the smaller of its two arguments. -/
theorem max_eq_Min (x m : Int) : max x m = Min.min x m := by
  unfold max
  split <;> omega

/-- The macro `min` is the larger of its two arguments. -/
theorem min_eq_Max (x m : Int) : min x m = Max.max x m := by
  unfold min
  split <;> omega

/-- A velocity byte that follows a pending music key in `PATCH` mode produces
one program change. -/
theorem resolve_patch (nv : Int) (s : State) (V : input_event)
    (hm : s.midi.prog_mode = prog_modes.PATCH) (hP : s.prev_iev.code ∈ keylist) :
    resolve nv s V =
      some ({ s with
                midi := { s.midi with
                  patch := Min.min (keyIndex s.prev_iev.code) 31 + 32 * s.midi.patch_page,
                  prog_mode := prog_modes.MUSIC },
                prev_iev := V, expecting := Expecting.KEY },
        [Action.send_event (snd_seq_event.pgmchange s.midi.channel
          (Min.min (keyIndex s.prev_iev.code) 31 + 32 * s.midi.patch_page))]) := by
  have hk := read_keymap_of_mem_keylist _ hP
  simp [resolve, hm, hk, max_eq_Min]

/-- A velocity byte that follows a pending music key in `BANK` mode produces
one control change of controller 0. -/
theorem resolve_bank (nv : Int) (s : State) (V : input_event)
    (hm : s.midi.prog_mode = prog_modes.BANK) (hP : s.prev_iev.code ∈ keylist) :
    resolve nv s V =
      some ({ s with
                midi := { s.midi with
                  bank := Min.min (keyIndex s.prev_iev.code) 31 + 32 * s.midi.bank_page,
                  prog_mode := prog_modes.MUSIC },
                prev_iev := V, expecting := Expecting.KEY },
        [Action.send_event (snd_seq_event.controller s.midi.channel 0
          (Min.min (keyIndex s.prev_iev.code) 31 + 32 * s.midi.bank_page))]) := by
  have hk := read_keymap_of_mem_keylist _ hP
  simp [resolve, hm, hk, max_eq_Min]

theorem iskey_of_mem_function_keys : ∀ x ∈ function_keys, iskey x = false := by decide

theorem ne_F9_of_mem_function_keys : ∀ x ∈ function_keys, x ≠ KEY_F9 := by decide

/-- Every function key is recognised by `func_key`. -/
theorem func_key_fst_of_mem (g : MidiState) (x : Int) (hx : x ∈ function_keys) :
    (func_key g x).1 = 1 := by
  simp only [function_keys, page_select_keys, List.cons_append, List.nil_append,
    List.mem_cons, List.mem_singleton, List.not_mem_nil, or_false] at hx
  rcases hx with h | h | h | h | h | h | h | h | h | h | h <;> subst h <;>
    by_cases hc : g.prog_mode = prog_modes.CHANNEL <;>
    simp [func_key, hc, KEY_F1, KEY_F2, KEY_F3, KEY_F4, KEY_F5, KEY_F6, KEY_F7, KEY_F8,
      KEY_KP4, KEY_KP6, KEY_ENTER]

/-- A function key inside the window is handled by `func_key` and restarts
the window; nothing is sent. -/
theorem case_KEY_honoured (s : State) (q : input_event) (hq : q.code ∈ function_keys)
    (hw : q.time.tv_sec - s.quaver_sec ≤ FUNCTION_TIMEOUT) :
    case_KEY s q =
      ({ s with midi := (func_key s.midi q.code).2, quaver_sec := q.time.tv_sec }, []) := by
  have h1 := iskey_of_mem_function_keys _ hq
  have h2 := ne_F9_of_mem_function_keys _ hq
  have h3 := func_key_fst_of_mem s.midi _ hq
  simp [case_KEY, h1, h2, hw, h3]

/-- A function key whose seconds field is more than `FUNCTION_TIMEOUT` past
`quaver_sec` is passed through; the state is not changed. -/
theorem case_KEY_expired (s : State) (e : input_event) (he : e.code ∈ function_keys)
    (hlate : e.time.tv_sec - s.quaver_sec > FUNCTION_TIMEOUT) :
    case_KEY s e = (s, [Action.send_key e]) := by
  have h1 := iskey_of_mem_function_keys _ he
  have h2 := ne_F9_of_mem_function_keys _ he
  have h3 : ¬ (e.time.tv_sec - s.quaver_sec ≤ FUNCTION_TIMEOUT) := by omega
  simp [case_KEY, h1, h2, h3]

/-- The quaver key restarts the window and selects `MUSIC`; nothing is sent. -/
theorem case_KEY_quaver (s : State) (q : input_event) (hq : q.code = KEY_F9) :
    case_KEY s q =
      ({ s with quaver_sec := q.time.tv_sec,
                midi := { s.midi with prog_mode := prog_modes.MUSIC } }, []) := by
  have h1 : iskey KEY_F9 = false := by decide
  simp [case_KEY, h1, hq]

/-! ## Claims -/

/-- C1 (recovery): for music keys A and B and a velocity symbol V of level 2,
in Music mode with the no-velocity flag clear, the events A, B, V processed
from AwaitingKey produce exactly two emitter calls, in this order: the
passthrough of A, then one note-on on the current channel with note
`keyIndex B - 19 + 12 * octave` and velocity 63; the decoder ends expecting a
key, with the MIDI state and the quaver time unchanged. -/
theorem C1_recovery (n : Nat) (s : State) (A B V : input_event)
    (hs : s.expecting = Expecting.KEY) (hm : s.midi.prog_mode = prog_modes.MUSIC)
    (hA : A.code ∈ keylist) (hB : B.code ∈ keylist)
    (hV : V.code ∈ numlist) (hL : velocityLevel V.code = 2) :
    run (n + 2) 0 s [Input.event A, Input.event B, Input.event V] =
      some ({ s with prev_iev := V, expecting := Expecting.KEY },
        [Action.send_key A,
         Action.send_event (snd_seq_event.noteon s.midi.channel
           ((keyIndex B.code - 19) + 12 * s.midi.octave) 63)]) := by
  have hkA := iskey_of_mem_keylist _ hA
  have hkB := iskey_of_mem_keylist _ hB
  have hnB : isnum B.code = false := by
    cases h : isnum B.code
    · rfl
    · exfalso
      revert h
      exact (by decide : ∀ x ∈ keylist, isnum x = true → False) _ hB
  have h1 : loop (n + 2) 0 s A =
      some ({ s with prev_iev := A, expecting := Expecting.VELOCITY }, []) := by
    rw [loop_KEY (n + 1) 0 s A hs, case_KEY_of_iskey s A hkA]
  have h2 : loop (n + 2) 0 { s with prev_iev := A, expecting := Expecting.VELOCITY } B =
      some ({ s with prev_iev := B, expecting := Expecting.VELOCITY },
            [Action.send_key A]) := by
    rw [loop_VELOCITY_flush n 0 _ B rfl hnB, case_KEY_of_iskey _ B hkB]
  have h3 : loop (n + 2) 0 { s with prev_iev := B, expecting := Expecting.VELOCITY } V =
      some ({ s with prev_iev := V, expecting := Expecting.KEY },
            [Action.send_event (snd_seq_event.noteon s.midi.channel
              ((keyIndex B.code - 19) + 12 * s.midi.octave) 63)]) := by
    rw [loop_VELOCITY_resolve (n + 1) 0 _ V rfl (iskey_of_mem_numlist _ hV)
      (isnum_of_mem_numlist _ hV)]
    have hr := resolve_note 0
      { s with prev_iev := B, expecting := Expecting.KEY } V prog_modes.MUSIC hm
      (by decide) (by decide) hB hV
    simp only [hL] at hr
    exact hr
  simp [run, step, h1, h2, h3]

/-- Witness of C1: the keys A and T (index 19) and the symbol 2, from the
initial state. -/
theorem C1_recovery_witness :
    run 2 0 (State.init (key_event 0 0 0 0))
      [Input.event (key_event KEY_A 1 5 0), Input.event (key_event KEY_T 1 5 10),
       Input.event (key_event KEY_2 1 5 20)] =
    some ({ State.init (key_event 0 0 0 0) with
              prev_iev := key_event KEY_2 1 5 20, expecting := Expecting.KEY },
      [Action.send_key (key_event KEY_A 1 5 0),
       Action.send_event (snd_seq_event.noteon 0 ((keyIndex KEY_T - 19) + 12 * 5) 63)]) :=
  C1_recovery 0 (State.init (key_event 0 0 0 0)) (key_event KEY_A 1 5 0)
    (key_event KEY_T 1 5 10) (key_event KEY_2 1 5 20) rfl rfl
    (by decide) (by decide) (by decide) (by decide)

/-- C2 (flush, then reprocess): when a key is pending and the incoming code
is not a velocity byte, the decoder returns, and its result is that of the
specification's flush-then-reprocess: the passthrough of the pending event
comes first, followed by exactly the emitter calls of one step on the same
event from the state that expects a key, and the final state is the final
state of that step. -/
theorem C2_flush_then_reprocess (n : Nat) (nv : Int) (s : State) (e : input_event)
    (hs : s.expecting = Expecting.VELOCITY) (he : isnum e.code = false) :
    ∃ s1 outs,
      loop (n + 1) nv { s with expecting := Expecting.KEY,
                               prev_iev := (send_key s.prev_iev).2 } e = some (s1, outs) ∧
      loop (n + 2) nv s e = some (s1, Action.send_key s.prev_iev :: outs) ∧
      loop (n + 2) nv s e = spec_flush_then_reprocess (n + 1) nv s e := by
  refine ⟨_, _, loop_KEY n nv _ e rfl, loop_VELOCITY_flush n nv s e hs he, ?_⟩
  rw [loop_VELOCITY_flush n nv s e hs he, spec_flush_then_reprocess,
    loop_KEY n nv _ e rfl]
  rfl

/-- Witness of C2: the key A is pending and the key B arrives. -/
theorem C2_flush_then_reprocess_witness :
    ∃ s1 outs,
      loop 1 0 { ({ State.init (key_event KEY_A 2 5 0) with
                      expecting := Expecting.VELOCITY } : State) with
                   expecting := Expecting.KEY,
                   prev_iev := (send_key (key_event KEY_A 2 5 0)).2 }
          (key_event KEY_B 1 5 10) = some (s1, outs) ∧
      loop 2 0 { State.init (key_event KEY_A 2 5 0) with expecting := Expecting.VELOCITY }
          (key_event KEY_B 1 5 10) =
        some (s1, Action.send_key (key_event KEY_A 2 5 0) :: outs) ∧
      loop 2 0 { State.init (key_event KEY_A 2 5 0) with expecting := Expecting.VELOCITY }
          (key_event KEY_B 1 5 10) =
        spec_flush_then_reprocess 1 0
          { State.init (key_event KEY_A 2 5 0) with expecting := Expecting.VELOCITY }
          (key_event KEY_B 1 5 10) :=
  C2_flush_then_reprocess 0 0
    { State.init (key_event KEY_A 2 5 0) with expecting := Expecting.VELOCITY }
    (key_event KEY_B 1 5 10) rfl (by decide)

/-- C3 (timeout flush): a music key A processed while a key is expected
produces no emitter call and leaves A pending; a timeout then produces exactly
the passthrough of A, leaves the MIDI state and the quaver time unchanged and
returns the decoder to expecting a key; a timeout while a key is expected
produces nothing and changes nothing. -/
theorem C3_timeout_flush (n : Nat) (nv : Int) (s : State) (A : input_event)
    (hs : s.expecting = Expecting.KEY) (hA : A.code ∈ keylist) :
    loop (n + 1) nv s A =
        some ({ s with prev_iev := A, expecting := Expecting.VELOCITY }, []) ∧
      select_timeout { s with prev_iev := A, expecting := Expecting.VELOCITY } =
        ({ s with prev_iev := (send_key A).2, expecting := Expecting.KEY },
         [Action.send_key A]) ∧
      run (n + 1) nv s [Input.event A, Input.timeout] =
        some ({ s with prev_iev := (send_key A).2, expecting := Expecting.KEY },
              [Action.send_key A]) ∧
      select_timeout s = (s, []) := by
  have h1 : loop (n + 1) nv s A =
      some ({ s with prev_iev := A, expecting := Expecting.VELOCITY }, []) := by
    rw [loop_KEY n nv s A hs, case_KEY_of_iskey s A (iskey_of_mem_keylist _ hA)]
  refine ⟨h1, rfl, ?_, ?_⟩
  · simp [run, step, h1, select_timeout]
  · simp [select_timeout, hs]

/-- Witness of C3: the key A from the initial state. -/
theorem C3_timeout_flush_witness :
    loop 1 0 (State.init (key_event 0 0 0 0)) (key_event KEY_A 1 5 0) =
        some ({ State.init (key_event 0 0 0 0) with
                  prev_iev := key_event KEY_A 1 5 0, expecting := Expecting.VELOCITY }, []) ∧
      select_timeout { State.init (key_event 0 0 0 0) with
          prev_iev := key_event KEY_A 1 5 0, expecting := Expecting.VELOCITY } =
        ({ State.init (key_event 0 0 0 0) with
             prev_iev := (send_key (key_event KEY_A 1 5 0)).2, expecting := Expecting.KEY },
         [Action.send_key (key_event KEY_A 1 5 0)]) ∧
      run 1 0 (State.init (key_event 0 0 0 0))
          [Input.event (key_event KEY_A 1 5 0), Input.timeout] =
        some ({ State.init (key_event 0 0 0 0) with
                  prev_iev := (send_key (key_event KEY_A 1 5 0)).2,
                  expecting := Expecting.KEY },
              [Action.send_key (key_event KEY_A 1 5 0)]) ∧
      select_timeout (State.init (key_event 0 0 0 0)) = (State.init (key_event 0 0 0 0), []) :=
  C3_timeout_flush 0 0 (State.init (key_event 0 0 0 0)) (key_event KEY_A 1 5 0) rfl (by decide)

/-- C4 (note arithmetic): in Music mode, for a pending music key (whose table
index lies in 0..36), every octave and every velocity symbol, the decoder
emits exactly one note-on, on the current channel, whose note number is
`keyIndex - 19 + 12 * octave`; with index 19 and octave 5 the note is 60. -/
theorem C4_note_arithmetic (n : Nat) (nv : Int) (s : State) (V : input_event)
    (hs : s.expecting = Expecting.VELOCITY) (hm : s.midi.prog_mode = prog_modes.MUSIC)
    (hP : s.prev_iev.code ∈ keylist) (hV : V.code ∈ numlist) :
    (0 ≤ keyIndex s.prev_iev.code ∧ keyIndex s.prev_iev.code ≤ 36) ∧
    (∃ vel, loop (n + 1) nv s V =
      some ({ s with prev_iev := V, expecting := Expecting.KEY },
        [Action.send_event (snd_seq_event.noteon s.midi.channel
          ((keyIndex s.prev_iev.code - 19) + 12 * s.midi.octave) vel)])) ∧
    (keyIndex s.prev_iev.code = 19 → s.midi.octave = 5 →
      ∃ vel, loop (n + 1) nv s V =
        some ({ s with prev_iev := V, expecting := Expecting.KEY },
          [Action.send_event (snd_seq_event.noteon s.midi.channel 60 vel)])) := by
  have hl : loop (n + 1) nv s V =
      some ({ s with prev_iev := V, expecting := Expecting.KEY },
        [Action.send_event (snd_seq_event.noteon s.midi.channel
          ((keyIndex s.prev_iev.code - 19) + 12 * s.midi.octave)
          (if nv ≠ 0 then 64
           else if velocityLevel V.code = 0 then 0
           else Int.tdiv 127 (velocityLevel V.code)))]) := by
    rw [loop_VELOCITY_resolve n nv s V hs (iskey_of_mem_numlist _ hV)
      (isnum_of_mem_numlist _ hV)]
    exact resolve_note nv { s with expecting := Expecting.KEY } V prog_modes.MUSIC hm
      (by decide) (by decide) hP hV
  refine ⟨keyIndex_range_of_mem_keylist _ hP, ⟨_, hl⟩, ?_⟩
  intro hk ho
  rw [hk, ho] at hl
  exact ⟨_, hl⟩

/-- Witness of C4: the key T (index 19) is pending at octave 5. -/
theorem C4_note_arithmetic_witness :
    (0 ≤ keyIndex (pending_state MidiState.init KEY_T).prev_iev.code ∧
      keyIndex (pending_state MidiState.init KEY_T).prev_iev.code ≤ 36) ∧
    (∃ vel, loop 1 0 (pending_state MidiState.init KEY_T) (key_event KEY_1 1 5 2500) =
      some ({ pending_state MidiState.init KEY_T with
                prev_iev := key_event KEY_1 1 5 2500, expecting := Expecting.KEY },
        [Action.send_event (snd_seq_event.noteon
          (pending_state MidiState.init KEY_T).midi.channel
          ((keyIndex (pending_state MidiState.init KEY_T).prev_iev.code - 19) +
            12 * (pending_state MidiState.init KEY_T).midi.octave) vel)])) ∧
    (keyIndex (pending_state MidiState.init KEY_T).prev_iev.code = 19 →
      (pending_state MidiState.init KEY_T).midi.octave = 5 →
      ∃ vel, loop 1 0 (pending_state MidiState.init KEY_T) (key_event KEY_1 1 5 2500) =
        some ({ pending_state MidiState.init KEY_T with
                  prev_iev := key_event KEY_1 1 5 2500, expecting := Expecting.KEY },
          [Action.send_event (snd_seq_event.noteon
            (pending_state MidiState.init KEY_T).midi.channel 60 vel)])) :=
  C4_note_arithmetic 0 0 (pending_state MidiState.init KEY_T) (key_event KEY_1 1 5 2500)
    rfl rfl (by decide) (by decide)

/-- C5 (velocity mapping): in Music mode with the no-velocity flag clear, a
velocity symbol of level L in 1..7 after a pending music key gives a note-on
with velocity 127 / L, the division truncating; the seven values are
127, 63, 42, 31, 25, 21 and 18. -/
theorem C5_velocity_mapping (n : Nat) (s : State) (V : input_event) (L : Int)
    (hs : s.expecting = Expecting.VELOCITY) (hm : s.midi.prog_mode = prog_modes.MUSIC)
    (hP : s.prev_iev.code ∈ keylist) (hV : V.code ∈ numlist)
    (hL : velocityLevel V.code = L) (h1 : 1 ≤ L) (h7 : L ≤ 7) :
    loop (n + 1) 0 s V =
      some ({ s with prev_iev := V, expecting := Expecting.KEY },
        [Action.send_event (snd_seq_event.noteon s.midi.channel
          ((keyIndex s.prev_iev.code - 19) + 12 * s.midi.octave) (Int.tdiv 127 L))]) ∧
    Int.tdiv 127 L = [127, 63, 42, 31, 25, 21, 18].getD (L.toNat - 1) 0 := by
  constructor
  · rw [loop_VELOCITY_resolve n 0 s V hs (iskey_of_mem_numlist _ hV)
      (isnum_of_mem_numlist _ hV)]
    have hr := resolve_note 0 { s with expecting := Expecting.KEY } V prog_modes.MUSIC hm
      (by decide) (by decide) hP hV
    have h0 : ¬ (L = 0) := by omega
    simp only [hL, h0, if_false, ne_eq, not_true_eq_false] at hr
    exact hr
  · have hcases : L = 1 ∨ L = 2 ∨ L = 3 ∨ L = 4 ∨ L = 5 ∨ L = 6 ∨ L = 7 := by omega
    rcases hcases with h | h | h | h | h | h | h <;> subst h <;> decide

/-- Witness of C5: level 7 (the softest) after the key T gives velocity 18. -/
theorem C5_velocity_mapping_witness :
    loop 1 0 (pending_state MidiState.init KEY_T) (key_event KEY_7 1 5 2500) =
      some ({ pending_state MidiState.init KEY_T with
                prev_iev := key_event KEY_7 1 5 2500, expecting := Expecting.KEY },
        [Action.send_event (snd_seq_event.noteon
          (pending_state MidiState.init KEY_T).midi.channel
          ((keyIndex (pending_state MidiState.init KEY_T).prev_iev.code - 19) +
            12 * (pending_state MidiState.init KEY_T).midi.octave) (Int.tdiv 127 7))]) ∧
    Int.tdiv 127 7 = [127, 63, 42, 31, 25, 21, 18].getD ((7 : Int).toNat - 1) 0 :=
  C5_velocity_mapping 0 (pending_state MidiState.init KEY_T) (key_event KEY_7 1 5 2500) 7
    rfl rfl (by decide) (by decide) (by decide) (by decide) (by decide)

set_option maxRecDepth 100000 in
/-- C6 (release with the no-velocity flag): with the key T pending at octave 5
on channel 0 and the velocity symbol of level 0, the decoder run with the
no-velocity flag set emits a note-on with velocity 64, whereas with the flag
clear it emits velocity 0. -/
theorem C6_level0_with_no_velocity :
    loop 1 1 (pending_state MidiState.init KEY_T) (key_event KEY_0 1 5 2500) =
      some ({ pending_state MidiState.init KEY_T with
                prev_iev := key_event KEY_0 1 5 2500, expecting := Expecting.KEY },
        [Action.send_event (snd_seq_event.noteon 0 60 64)]) ∧
    loop 1 0 (pending_state MidiState.init KEY_T) (key_event KEY_0 1 5 2500) =
      some ({ pending_state MidiState.init KEY_T with
                prev_iev := key_event KEY_0 1 5 2500, expecting := Expecting.KEY },
        [Action.send_event (snd_seq_event.noteon 0 60 0)]) := by
  decide

/-- Page-select keys 1..4 select `PATCH` and patch page `p - 1`. -/
theorem func_key_patch_page (g : MidiState) (p : Nat) (h1 : 1 ≤ p) (h4 : p ≤ 4) :
    func_key g (page_select p) =
      (1, { g with patch_page := (p : Int) - 1, prog_mode := prog_modes.PATCH }) := by
  have hcases : p = 1 ∨ p = 2 ∨ p = 3 ∨ p = 4 := by omega
  rcases hcases with h | h | h | h <;> subst h <;> rfl

/-- Page-select keys 5..8 select `BANK` and bank page `n - 5`. -/
theorem func_key_bank_page (g : MidiState) (n : Nat) (h5 : 5 ≤ n) (h8 : n ≤ 8) :
    func_key g (page_select n) =
      (1, { g with bank_page := (n : Int) - 5, prog_mode := prog_modes.BANK }) := by
  have hcases : n = 5 ∨ n = 6 ∨ n = 7 ∨ n = 8 := by omega
  rcases hcases with h | h | h | h <;> subst h <;> rfl

theorem page_select_mem_function_keys (n : Nat) (h1 : 1 ≤ n) (h8 : n ≤ 8) :
    page_select n ∈ function_keys := by
  have hcases : n = 1 ∨ n = 2 ∨ n = 3 ∨ n = 4 ∨ n = 5 ∨ n = 6 ∨ n = 7 ∨ n = 8 := by omega
  rcases hcases with h | h | h | h | h | h | h | h <;> subst h <;> decide

/-- C7 (patch paging): with the quaver window open, page-select key p in
1..4, then a music key of index k, then any velocity symbol, processed from
the state that expects a key, produce exactly one emitter call, a program
change on the current channel with program `min k 31 + 32 * (p - 1)`; that
value is stored as the patch, the patch page is p - 1 and `prog_mode` is
`MUSIC` afterwards; for p = 2 and k = 5 the program is 37. -/
theorem C7_patch_paging (n : Nat) (nv : Int) (s : State) (F K V : input_event) (p : Nat)
    (hs : s.expecting = Expecting.KEY) (hp1 : 1 ≤ p) (hp4 : p ≤ 4)
    (hF : F.code = page_select p)
    (hw : F.time.tv_sec - s.quaver_sec ≤ FUNCTION_TIMEOUT)
    (hK : K.code ∈ keylist) (hV : V.code ∈ numlist) :
    run (n + 1) nv s [Input.event F, Input.event K, Input.event V] =
      some ({ midi := { s.midi with
                patch_page := (p : Int) - 1,
                patch := Min.min (keyIndex K.code) 31 + 32 * ((p : Int) - 1),
                prog_mode := prog_modes.MUSIC },
              expecting := Expecting.KEY, prev_iev := V, quaver_sec := F.time.tv_sec },
        [Action.send_event (snd_seq_event.pgmchange s.midi.channel
          (Min.min (keyIndex K.code) 31 + 32 * ((p : Int) - 1)))]) ∧
    (p = 2 → keyIndex K.code = 5 →
      Min.min (keyIndex K.code) 31 + 32 * ((p : Int) - 1) = 37) := by
  have hFm : F.code ∈ function_keys := by
    rw [hF]; exact page_select_mem_function_keys p hp1 (by omega)
  have e1 : loop (n + 1) nv s F =
      some ({ s with midi := { s.midi with patch_page := (p : Int) - 1,
                                           prog_mode := prog_modes.PATCH },
                     quaver_sec := F.time.tv_sec }, []) := by
    rw [loop_KEY n nv s F hs, case_KEY_honoured s F hFm hw, hF,
      func_key_patch_page s.midi p hp1 hp4]
  have e2 : loop (n + 1) nv
      { s with midi := { s.midi with patch_page := (p : Int) - 1,
                                     prog_mode := prog_modes.PATCH },
               quaver_sec := F.time.tv_sec } K =
      some ({ midi := { s.midi with patch_page := (p : Int) - 1,
                                    prog_mode := prog_modes.PATCH },
              expecting := Expecting.VELOCITY, prev_iev := K,
              quaver_sec := F.time.tv_sec }, []) := by
    have hs1 : ∀ (m : MidiState) (q : Int),
        ({ s with midi := m, quaver_sec := q } : State).expecting = Expecting.KEY :=
      fun _ _ => hs
    rw [loop_KEY n nv _ K (hs1 _ _), case_KEY_of_iskey _ K (iskey_of_mem_keylist _ hK)]
  have e3 : loop (n + 1) nv
      { midi := { s.midi with patch_page := (p : Int) - 1,
                              prog_mode := prog_modes.PATCH },
        expecting := Expecting.VELOCITY, prev_iev := K,
        quaver_sec := F.time.tv_sec } V =
      some ({ midi := { s.midi with
                patch_page := (p : Int) - 1,
                patch := Min.min (keyIndex K.code) 31 + 32 * ((p : Int) - 1),
                prog_mode := prog_modes.MUSIC },
              expecting := Expecting.KEY, prev_iev := V, quaver_sec := F.time.tv_sec },
        [Action.send_event (snd_seq_event.pgmchange s.midi.channel
          (Min.min (keyIndex K.code) 31 + 32 * ((p : Int) - 1)))]) := by
    rw [loop_VELOCITY_resolve n nv _ V rfl (iskey_of_mem_numlist _ hV)
      (isnum_of_mem_numlist _ hV)]
    exact resolve_patch nv
      { midi := { s.midi with patch_page := (p : Int) - 1,
                              prog_mode := prog_modes.PATCH },
        expecting := Expecting.KEY, prev_iev := K, quaver_sec := F.time.tv_sec } V rfl hK
  refine ⟨?_, ?_⟩
  · simp [run, step, e1, e2, e3]
  · intro h2 h5
    rw [h2, h5]
    decide

/-- Witness of C7: page-select II, then the key F (index 5), then the
symbol 1, one second after program start. -/
theorem C7_patch_paging_witness :
    run 1 0 (State.init (key_event 0 0 0 0))
        [Input.event (key_event KEY_F2 1 1 0), Input.event (key_event KEY_F 1 1 500000),
         Input.event (key_event KEY_1 1 1 502500)] =
      some ({ midi := { (State.init (key_event 0 0 0 0)).midi with
                patch_page := ((2 : Nat) : Int) - 1,
                patch := Min.min (keyIndex (key_event KEY_F 1 1 500000).code) 31 +
                  32 * (((2 : Nat) : Int) - 1),
                prog_mode := prog_modes.MUSIC },
              expecting := Expecting.KEY, prev_iev := key_event KEY_1 1 1 502500,
              quaver_sec := (key_event KEY_F2 1 1 0).time.tv_sec },
        [Action.send_event (snd_seq_event.pgmchange
          (State.init (key_event 0 0 0 0)).midi.channel
          (Min.min (keyIndex (key_event KEY_F 1 1 500000).code) 31 +
            32 * (((2 : Nat) : Int) - 1)))]) ∧
    ((2 : Nat) = 2 → keyIndex (key_event KEY_F 1 1 500000).code = 5 →
      Min.min (keyIndex (key_event KEY_F 1 1 500000).code) 31 +
        32 * (((2 : Nat) : Int) - 1) = 37) :=
  C7_patch_paging 0 0 (State.init (key_event 0 0 0 0)) (key_event KEY_F2 1 1 0)
    (key_event KEY_F 1 1 500000) (key_event KEY_1 1 1 502500) 2 rfl (by decide) (by decide)
    (by decide) (by decide) (by decide) (by decide)

/-- C8 (bank selection): in Bank mode with bank page b, a pending music key
of index k and any velocity symbol produce exactly one emitter call, a
control change on the current channel with controller 0 and value
`min k 31 + 32 * b`; that value is stored as the bank and `prog_mode` is
`MUSIC` afterwards. -/
theorem C8_bank_select (n : Nat) (nv : Int) (s : State) (V : input_event) (b : Int)
    (hs : s.expecting = Expecting.VELOCITY) (hm : s.midi.prog_mode = prog_modes.BANK)
    (hb : s.midi.bank_page = b) (hP : s.prev_iev.code ∈ keylist) (hV : V.code ∈ numlist) :
    loop (n + 1) nv s V =
      some ({ s with
                midi := { s.midi with
                  bank := Min.min (keyIndex s.prev_iev.code) 31 + 32 * b,
                  prog_mode := prog_modes.MUSIC },
                prev_iev := V, expecting := Expecting.KEY },
        [Action.send_event (snd_seq_event.controller s.midi.channel 0
          (Min.min (keyIndex s.prev_iev.code) 31 + 32 * b))]) := by
  rw [loop_VELOCITY_resolve n nv s V hs (iskey_of_mem_numlist _ hV)
    (isnum_of_mem_numlist _ hV)]
  subst hb
  exact resolve_bank nv { s with expecting := Expecting.KEY } V hm hP

/-- Witness of C8: bank page 1, the last key of the keyboard (index 36)
pending, then the symbol 3. -/
theorem C8_bank_select_witness :
    loop 1 0
        (pending_state { MidiState.init with bank_page := 1, prog_mode := prog_modes.BANK }
          KEY_DOT) (key_event KEY_3 1 5 2500) =
      some ({ pending_state { MidiState.init with bank_page := 1,
                                                  prog_mode := prog_modes.BANK } KEY_DOT with
                midi := { (pending_state { MidiState.init with
                              bank_page := 1, prog_mode := prog_modes.BANK } KEY_DOT).midi with
                  bank := Min.min (keyIndex (pending_state { MidiState.init with
                      bank_page := 1, prog_mode := prog_modes.BANK } KEY_DOT).prev_iev.code) 31
                    + 32 * 1,
                  prog_mode := prog_modes.MUSIC },
                prev_iev := key_event KEY_3 1 5 2500, expecting := Expecting.KEY },
        [Action.send_event (snd_seq_event.controller
          (pending_state { MidiState.init with bank_page := 1,
                                               prog_mode := prog_modes.BANK } KEY_DOT).midi.channel
          0
          (Min.min (keyIndex (pending_state { MidiState.init with
              bank_page := 1, prog_mode := prog_modes.BANK } KEY_DOT).prev_iev.code) 31
            + 32 * 1))]) :=
  C8_bank_select 0 0
    (pending_state { MidiState.init with bank_page := 1, prog_mode := prog_modes.BANK } KEY_DOT)
    (key_event KEY_3 1 5 2500) 1 rfl rfl rfl (by decide) (by decide)

/-- C9, as stated, fails: page-select key 5 is recognised by `func_key`,
selects `BANK` and sets the bank page to 0, not to 5 - 1. -/
theorem C9_counterexample :
    func_key MidiState.init (page_select 5) =
      (1, { MidiState.init with bank_page := 0, prog_mode := prog_modes.BANK }) ∧
    (func_key MidiState.init (page_select 5)).2.bank_page ≠ 5 - 1 := by
  decide

/-- C9 (amended): for every page-select key n in 5..8, `func_key` returns 1,
sets `prog_mode` to `BANK` and the bank page to n - 5 and changes nothing
else; when the key arrives inside the quaver window while a key is expected,
the decoder applies exactly that, restarts the window and sends nothing. -/
theorem C9_bank_page (fuel : Nat) (nv : Int) (s : State) (F : input_event) (n : Nat)
    (h5 : 5 ≤ n) (h8 : n ≤ 8) (hs : s.expecting = Expecting.KEY)
    (hF : F.code = page_select n)
    (hw : F.time.tv_sec - s.quaver_sec ≤ FUNCTION_TIMEOUT) :
    func_key s.midi (page_select n) =
      (1, { s.midi with bank_page := (n : Int) - 5, prog_mode := prog_modes.BANK }) ∧
    loop (fuel + 1) nv s F =
      some ({ s with midi := { s.midi with bank_page := (n : Int) - 5,
                                           prog_mode := prog_modes.BANK },
                     quaver_sec := F.time.tv_sec }, []) := by
  have hFm : F.code ∈ function_keys := by
    rw [hF]; exact page_select_mem_function_keys n (by omega) h8
  refine ⟨func_key_bank_page s.midi n h5 h8, ?_⟩
  rw [loop_KEY fuel nv s F hs, case_KEY_honoured s F hFm hw, hF,
    func_key_bank_page s.midi n h5 h8]

/-- Witness of C9: page-select VIII one second after program start. -/
theorem C9_bank_page_witness :
    func_key (State.init (key_event 0 0 0 0)).midi (page_select 8) =
      (1, { (State.init (key_event 0 0 0 0)).midi with
              bank_page := ((8 : Nat) : Int) - 5, prog_mode := prog_modes.BANK }) ∧
    loop 1 0 (State.init (key_event 0 0 0 0)) (key_event KEY_F8 1 1 0) =
      some ({ State.init (key_event 0 0 0 0) with
                midi := { (State.init (key_event 0 0 0 0)).midi with
                  bank_page := ((8 : Nat) : Int) - 5, prog_mode := prog_modes.BANK },
                quaver_sec := (key_event KEY_F8 1 1 0).time.tv_sec }, []) :=
  C9_bank_page 0 0 (State.init (key_event 0 0 0 0)) (key_event KEY_F8 1 1 0) 8
    (by decide) (by decide) rfl (by decide) (by decide)

set_option maxRecDepth 100000 in
/-- C10, as stated, fails: the quaver key at 10.000000 s and page-select I at
12.900000 s are 2.9 seconds apart, yet the page-select key is taken as a
command: nothing is passed through and `prog_mode` becomes `PATCH`. -/
theorem C10_counterexample :
    elapsed_usec (key_event KEY_F9 1 10 0).time (key_event KEY_F1 1 12 900000).time
        > 2 * 1000000 ∧
    run 1 0 (State.init (key_event 0 0 0 0))
        [Input.event (key_event KEY_F9 1 10 0), Input.event (key_event KEY_F1 1 12 900000)] =
      some ({ midi := { MidiState.init with prog_mode := prog_modes.PATCH },
              expecting := Expecting.KEY, prev_iev := key_event 0 0 0 0, quaver_sec := 12 },
        []) := by
  decide

/-- C10 (amended): the window is measured on the seconds field of the
timestamps only.  Let q be the quaver key, or a function key taken as a
command, processed while a key is expected; q sends nothing and records its
seconds field.  A function key e (page-select, arrow or enter) that comes
next and whose seconds field exceeds that of q by more than 2 is passed
through, and the whole state after e, the MIDI state and the recorded
quaver time included, is the state after q.  The same holds from every state
s2 that expects a key and whose recorded quaver time is more than 2 below the
seconds field of e. -/
theorem C10_window_expiry (n : Nat) (nv : Int) (s s2 : State) (q e : input_event)
    (hs : s.expecting = Expecting.KEY)
    (hq : q.code = KEY_F9 ∨
      (q.code ∈ function_keys ∧ q.time.tv_sec - s.quaver_sec ≤ FUNCTION_TIMEOUT))
    (he : e.code ∈ function_keys)
    (hlate : e.time.tv_sec - q.time.tv_sec > FUNCTION_TIMEOUT)
    (hs2 : s2.expecting = Expecting.KEY)
    (hlate2 : e.time.tv_sec - s2.quaver_sec > FUNCTION_TIMEOUT) :
    (∃ s1, run (n + 1) nv s [Input.event q] = some (s1, []) ∧
      s1.quaver_sec = q.time.tv_sec ∧
      run (n + 1) nv s [Input.event q, Input.event e] = some (s1, [Action.send_key e])) ∧
    loop (n + 1) nv s2 e = some (s2, [Action.send_key e]) := by
  have key : ∀ s1 : State, case_KEY s q = (s1, []) → s1.expecting = Expecting.KEY →
      s1.quaver_sec = q.time.tv_sec →
      run (n + 1) nv s [Input.event q] = some (s1, []) ∧
      s1.quaver_sec = q.time.tv_sec ∧
      run (n + 1) nv s [Input.event q, Input.event e] = some (s1, [Action.send_key e]) := by
    intro s1 h1 hk hqs
    have hl1 : loop (n + 1) nv s q = some (s1, []) := by
      rw [loop_KEY n nv s q hs, h1]
    have hl2 : loop (n + 1) nv s1 e = some (s1, [Action.send_key e]) := by
      rw [loop_KEY n nv s1 e hk, case_KEY_expired s1 e he (by rw [hqs]; exact hlate)]
    refine ⟨?_, hqs, ?_⟩
    · simp [run, step, hl1]
    · simp [run, step, hl1, hl2]
  refine ⟨?_, ?_⟩
  · rcases hq with hq | ⟨hq, hw⟩
    · exact ⟨_, key _ (case_KEY_quaver s q hq) hs rfl⟩
    · exact ⟨_, key _ (case_KEY_honoured s q hq hw) hs rfl⟩
  · rw [loop_KEY n nv s2 e hs2, case_KEY_expired s2 e he hlate2]

/-- Witness of C10: the quaver key at second 10, page-select I at second 13;
and page-select I at second 13 from the initial state, whose recorded quaver
time is 0. -/
theorem C10_window_expiry_witness :
    (∃ s1, run 1 0 (State.init (key_event 0 0 0 0))
        [Input.event (key_event KEY_F9 1 10 0)] = some (s1, []) ∧
      s1.quaver_sec = (key_event KEY_F9 1 10 0).time.tv_sec ∧
      run 1 0 (State.init (key_event 0 0 0 0))
        [Input.event (key_event KEY_F9 1 10 0), Input.event (key_event KEY_F1 1 13 0)] =
        some (s1, [Action.send_key (key_event KEY_F1 1 13 0)])) ∧
    loop 1 0 (State.init (key_event 0 0 0 0)) (key_event KEY_F1 1 13 0) =
      some (State.init (key_event 0 0 0 0), [Action.send_key (key_event KEY_F1 1 13 0)]) :=
  C10_window_expiry 0 0 (State.init (key_event 0 0 0 0)) (State.init (key_event 0 0 0 0))
    (key_event KEY_F9 1 10 0) (key_event KEY_F1 1 13 0) rfl (Or.inl rfl) (by decide)
    (by decide) rfl (by decide)

/-! ## Facts about the function keys -/

theorem arrow_mem_function_keys : ∀ x ∈ arrow_keys, x ∈ function_keys := by decide

/-- Two valid timestamps at most two seconds apart differ by at most
`FUNCTION_TIMEOUT` in their seconds fields. -/
theorem sec_diff_le_of_elapsed (a b : timeval) (ha : a.valid) (hb : b.valid)
    (h : elapsed_usec a b ≤ FUNCTION_TIMEOUT * 1000000) :
    b.tv_sec - a.tv_sec ≤ FUNCTION_TIMEOUT := by
  unfold timeval.valid at ha hb
  unfold elapsed_usec FUNCTION_TIMEOUT at h
  unfold FUNCTION_TIMEOUT
  omega

/-- An arrow key outside `CHANNEL` mode moves the octave only. -/
theorem func_key_arrow_octave (g : MidiState) (x : Int) (hx : x ∈ arrow_keys)
    (hm : g.prog_mode ≠ prog_modes.CHANNEL) :
    func_key g x = (1, { g with octave := octave_step x g.octave }) := by
  simp only [arrow_keys, List.mem_cons, List.mem_singleton, List.not_mem_nil, or_false] at hx
  rcases hx with h | h <;> subst h <;>
    simp [func_key, octave_step, hm, KEY_F1, KEY_F2, KEY_F3, KEY_F4, KEY_F5, KEY_F6, KEY_F7,
      KEY_F8, KEY_KP4, KEY_KP6]

/-- A velocity byte is not a function key. -/
theorem func_key_of_mem_numlist (g : MidiState) (x : Int) (hx : x ∈ numlist) :
    func_key g x = (0, g) := by
  simp only [numlist, List.mem_cons, List.mem_singleton, List.not_mem_nil, or_false] at hx
  rcases hx with h | h | h | h | h | h | h | h <;> subst h <;> rfl

/-- C11 (sliding window): after the quaver key q, an arrow key a1 inside the
window of q and a further arrow key a2 at most two seconds after a1 are both
taken as commands, whatever the time from q to a2: nothing is sent, each
arrow moves the octave by its clamped step, the other MIDI fields keep the
values the quaver key left, and the window restarts at a2. -/
theorem C11_sliding_window (n : Nat) (nv : Int) (s : State) (q a1 a2 : input_event)
    (hs : s.expecting = Expecting.KEY) (hq : q.code = KEY_F9)
    (h1 : a1.code ∈ arrow_keys) (h2 : a2.code ∈ arrow_keys)
    (hw1 : a1.time.tv_sec - q.time.tv_sec ≤ FUNCTION_TIMEOUT)
    (hv1 : a1.time.valid) (hv2 : a2.time.valid)
    (hw2 : elapsed_usec a1.time a2.time ≤ FUNCTION_TIMEOUT * 1000000) :
    run (n + 1) nv s [Input.event q, Input.event a1, Input.event a2] =
      some ({ s with
                midi := { s.midi with
                  prog_mode := prog_modes.MUSIC,
                  octave := octave_step a2.code (octave_step a1.code s.midi.octave) },
                quaver_sec := a2.time.tv_sec }, []) := by
  have hs1 : ∀ (m : MidiState) (t : Int),
      ({ s with midi := m, quaver_sec := t } : State).expecting = Expecting.KEY :=
    fun _ _ => hs
  have e1 : loop (n + 1) nv s q =
      some ({ s with quaver_sec := q.time.tv_sec,
                     midi := { s.midi with prog_mode := prog_modes.MUSIC } }, []) := by
    rw [loop_KEY n nv s q hs, case_KEY_quaver s q hq]
  have e2 : loop (n + 1) nv
      { s with quaver_sec := q.time.tv_sec,
               midi := { s.midi with prog_mode := prog_modes.MUSIC } } a1 =
      some ({ s with quaver_sec := a1.time.tv_sec,
                     midi := { s.midi with prog_mode := prog_modes.MUSIC,
                                           octave := octave_step a1.code s.midi.octave } },
            []) := by
    rw [loop_KEY n nv _ a1 (hs1 _ _),
      case_KEY_honoured _ a1 (arrow_mem_function_keys _ h1) hw1,
      func_key_arrow_octave _ _ h1 (by simp)]
  have e3 : loop (n + 1) nv
      { s with quaver_sec := a1.time.tv_sec,
               midi := { s.midi with prog_mode := prog_modes.MUSIC,
                                     octave := octave_step a1.code s.midi.octave } } a2 =
      some ({ s with
                midi := { s.midi with
                  prog_mode := prog_modes.MUSIC,
                  octave := octave_step a2.code (octave_step a1.code s.midi.octave) },
                quaver_sec := a2.time.tv_sec }, []) := by
    rw [loop_KEY n nv _ a2 (hs1 _ _),
      case_KEY_honoured _ a2 (arrow_mem_function_keys _ h2)
        (sec_diff_le_of_elapsed _ _ hv1 hv2 hw2),
      func_key_arrow_octave _ _ h2 (by simp)]
  simp [run, step, e1, e2, e3]

/-- Witness of C11: the quaver key at second 10, right arrow at second 12 and
right arrow again at second 14, four seconds after the quaver key. -/
theorem C11_sliding_window_witness :
    run 1 0 (State.init (key_event 0 0 0 0))
        [Input.event (key_event KEY_F9 1 10 0), Input.event (key_event KEY_KP6 1 12 0),
         Input.event (key_event KEY_KP6 1 14 0)] =
      some ({ State.init (key_event 0 0 0 0) with
                midi := { (State.init (key_event 0 0 0 0)).midi with
                  prog_mode := prog_modes.MUSIC,
                  octave := octave_step (key_event KEY_KP6 1 14 0).code
                    (octave_step (key_event KEY_KP6 1 12 0).code
                      (State.init (key_event 0 0 0 0)).midi.octave) },
                quaver_sec := (key_event KEY_KP6 1 14 0).time.tv_sec }, []) :=
  C11_sliding_window 0 0 (State.init (key_event 0 0 0 0)) (key_event KEY_F9 1 10 0)
    (key_event KEY_KP6 1 12 0) (key_event KEY_KP6 1 14 0) rfl rfl (by decide) (by decide)
    (by decide) (by decide) (by decide) (by decide)

/-- C12 (octave change): from the state that expects a key, in every program
mode and with the octave in 3..7, the quaver key followed by an arrow key
inside its window sends nothing, leaves `prog_mode` at `MUSIC`, moves the
octave one step down (left arrow) or up (right arrow) clamped to 3..7, and
leaves channel, patch, bank and both pages unchanged. -/
theorem C12_octave_change (n : Nat) (nv : Int) (s : State) (q a : input_event)
    (hs : s.expecting = Expecting.KEY) (hq : q.code = KEY_F9)
    (ha : a.code ∈ arrow_keys)
    (hw : a.time.tv_sec - q.time.tv_sec ≤ FUNCTION_TIMEOUT)
    (ho3 : 3 ≤ s.midi.octave) (ho7 : s.midi.octave ≤ 7) :
    run (n + 1) nv s [Input.event q, Input.event a] =
      some ({ s with
                midi := { s.midi with
                  prog_mode := prog_modes.MUSIC,
                  octave := Max.max 3 (Min.min 7
                    (s.midi.octave + (if a.code = KEY_KP4 then -1 else 1))) },
                quaver_sec := a.time.tv_sec }, []) := by
  have hs1 : ∀ (m : MidiState) (t : Int),
      ({ s with midi := m, quaver_sec := t } : State).expecting = Expecting.KEY :=
    fun _ _ => hs
  have e1 : loop (n + 1) nv s q =
      some ({ s with quaver_sec := q.time.tv_sec,
                     midi := { s.midi with prog_mode := prog_modes.MUSIC } }, []) := by
    rw [loop_KEY n nv s q hs, case_KEY_quaver s q hq]
  have hoct : octave_step a.code s.midi.octave =
      Max.max 3 (Min.min 7 (s.midi.octave + (if a.code = KEY_KP4 then -1 else 1))) := by
    simp only [arrow_keys, List.mem_cons, List.mem_singleton, List.not_mem_nil,
      or_false] at ha
    rcases ha with h | h <;> rw [h] <;>
      simp only [octave_step, min_eq_Max, max_eq_Min, octave_min, octave_max, KEY_KP4,
        KEY_KP6] <;> simp <;> omega
  have e2 : loop (n + 1) nv
      { s with quaver_sec := q.time.tv_sec,
               midi := { s.midi with prog_mode := prog_modes.MUSIC } } a =
      some ({ s with
                midi := { s.midi with
                  prog_mode := prog_modes.MUSIC,
                  octave := Max.max 3 (Min.min 7
                    (s.midi.octave + (if a.code = KEY_KP4 then -1 else 1))) },
                quaver_sec := a.time.tv_sec }, []) := by
    rw [loop_KEY n nv _ a (hs1 _ _),
      case_KEY_honoured _ a (arrow_mem_function_keys _ ha) hw,
      func_key_arrow_octave _ _ ha (by simp), ← hoct]
  simp [run, step, e1, e2]

/-- Witness of C12: in Bank mode at octave 7, the quaver key and then the
right arrow one second later. -/
theorem C12_octave_change_witness :
    run 1 0 (key_state { MidiState.init with octave := 7, prog_mode := prog_modes.BANK })
        [Input.event (key_event KEY_F9 1 10 0), Input.event (key_event KEY_KP6 1 11 0)] =
      some ({ key_state { MidiState.init with octave := 7, prog_mode := prog_modes.BANK } with
                midi := { (key_state { MidiState.init with
                              octave := 7, prog_mode := prog_modes.BANK }).midi with
                  prog_mode := prog_modes.MUSIC,
                  octave := Max.max 3 (Min.min 7
                    ((key_state { MidiState.init with
                        octave := 7, prog_mode := prog_modes.BANK }).midi.octave +
                      (if (key_event KEY_KP6 1 11 0).code = KEY_KP4 then -1 else 1))) },
                quaver_sec := (key_event KEY_KP6 1 11 0).time.tv_sec }, []) :=
  C12_octave_change 0 0
    (key_state { MidiState.init with octave := 7, prog_mode := prog_modes.BANK })
    (key_event KEY_F9 1 10 0) (key_event KEY_KP6 1 11 0) rfl rfl (by decide) (by decide)
    (by decide) (by decide)

/-- C13 (arrow keys): `func_key` returns 1 for both arrow keys and never
changes `prog_mode`; the left arrow sets the channel to
`channel - 1 if channel - 1 >= 0 else 0` in `CHANNEL` mode and otherwise the
octave to `octave - 1 if octave - 1 >= 3 else 3`; the right arrow sets the
channel to `channel + 1 if channel + 1 <= 15 else 15` in `CHANNEL` mode and
otherwise the octave to `octave + 1 if octave + 1 <= 7 else 7`; every other
field is kept. -/
theorem C13_arrow_clamps (g : MidiState) :
    func_key g KEY_KP4 =
      (1, if g.prog_mode = prog_modes.CHANNEL then
            { g with channel := if g.channel - 1 ≥ 0 then g.channel - 1 else 0 }
          else
            { g with octave := if g.octave - 1 ≥ 3 then g.octave - 1 else 3 }) ∧
    func_key g KEY_KP6 =
      (1, if g.prog_mode = prog_modes.CHANNEL then
            { g with channel := if g.channel + 1 ≤ 15 then g.channel + 1 else 15 }
          else
            { g with octave := if g.octave + 1 ≤ 7 then g.octave + 1 else 7 }) ∧
    (func_key g KEY_KP4).2.prog_mode = g.prog_mode ∧
    (func_key g KEY_KP6).2.prog_mode = g.prog_mode := by
  by_cases hc : g.prog_mode = prog_modes.CHANNEL
  · have h1 : ¬ (g.channel - 1 < 0) ↔ g.channel - 1 ≥ 0 := by omega
    have h2 : ¬ (g.channel + 1 > 15) ↔ g.channel + 1 ≤ 15 := by omega
    refine ⟨?_, ?_, ?_, ?_⟩ <;>
      simp [func_key, hc, min, max, KEY_F1, KEY_F2, KEY_F3, KEY_F4, KEY_F5, KEY_F6, KEY_F7,
        KEY_F8, KEY_KP4, KEY_KP6] <;>
      split <;> split <;> first | rfl | omega
  · refine ⟨?_, ?_, ?_, ?_⟩ <;>
      simp [func_key, hc, min, max, octave_min, octave_max, KEY_F1, KEY_F2, KEY_F3, KEY_F4,
        KEY_F5, KEY_F6, KEY_F7, KEY_F8, KEY_KP4, KEY_KP6] <;>
      split <;> split <;> first | rfl | omega

/-- In `CHANNEL` mode an arrow key moves the channel only. -/
theorem func_key_arrow_channel (g : MidiState) (x : Int) (hx : x ∈ arrow_keys)
    (hm : g.prog_mode = prog_modes.CHANNEL) :
    func_key g x =
      (1, { g with channel :=
              if x = KEY_KP4 then Max.max (g.channel - 1) 0 else Min.min (g.channel + 1) 15 }) := by
  simp only [arrow_keys, List.mem_cons, List.mem_singleton, List.not_mem_nil, or_false] at hx
  rcases hx with h | h <;> subst h <;>
    simp [func_key, hm, min_eq_Max, max_eq_Min, KEY_F1, KEY_F2, KEY_F3, KEY_F4, KEY_F5,
      KEY_F6, KEY_F7, KEY_F8, KEY_KP4, KEY_KP6]

/-- The enter key selects `CHANNEL` mode. -/
theorem func_key_enter (g : MidiState) :
    func_key g KEY_ENTER = (1, { g with prog_mode := prog_modes.CHANNEL }) := by
  rfl

/-- C14 (channel change): the quaver key, then enter, then an arrow key, each
inside the window of the one before, processed from the state that expects a
key, send nothing, leave `prog_mode` at `CHANNEL`, set the channel c to
`min (c + 1) 15` for the right arrow and to `max (c - 1) 0` for the left
arrow, and leave the octave and every other MIDI field unchanged. -/
theorem C14_channel_change (n : Nat) (nv : Int) (s : State) (q r a : input_event)
    (hs : s.expecting = Expecting.KEY) (hq : q.code = KEY_F9) (hr : r.code = KEY_ENTER)
    (ha : a.code ∈ arrow_keys)
    (hw1 : r.time.tv_sec - q.time.tv_sec ≤ FUNCTION_TIMEOUT)
    (hw2 : a.time.tv_sec - r.time.tv_sec ≤ FUNCTION_TIMEOUT)
    (hc0 : 0 ≤ s.midi.channel) (hc15 : s.midi.channel ≤ 15) :
    run (n + 1) nv s [Input.event q, Input.event r, Input.event a] =
      some ({ s with
                midi := { s.midi with
                  prog_mode := prog_modes.CHANNEL,
                  channel := if a.code = KEY_KP4 then Max.max (s.midi.channel - 1) 0
                             else Min.min (s.midi.channel + 1) 15 },
                quaver_sec := a.time.tv_sec }, []) ∧
    (0 ≤ (if a.code = KEY_KP4 then Max.max (s.midi.channel - 1) 0
          else Min.min (s.midi.channel + 1) 15) ∧
     (if a.code = KEY_KP4 then Max.max (s.midi.channel - 1) 0
      else Min.min (s.midi.channel + 1) 15) ≤ 15) := by
  have hs1 : ∀ (m : MidiState) (t : Int),
      ({ s with midi := m, quaver_sec := t } : State).expecting = Expecting.KEY :=
    fun _ _ => hs
  have hrm : r.code ∈ function_keys := by rw [hr]; decide
  have e1 : loop (n + 1) nv s q =
      some ({ s with quaver_sec := q.time.tv_sec,
                     midi := { s.midi with prog_mode := prog_modes.MUSIC } }, []) := by
    rw [loop_KEY n nv s q hs, case_KEY_quaver s q hq]
  have e2 : loop (n + 1) nv
      { s with quaver_sec := q.time.tv_sec,
               midi := { s.midi with prog_mode := prog_modes.MUSIC } } r =
      some ({ s with quaver_sec := r.time.tv_sec,
                     midi := { s.midi with prog_mode := prog_modes.CHANNEL } }, []) := by
    rw [loop_KEY n nv _ r (hs1 _ _), case_KEY_honoured _ r hrm hw1, hr, func_key_enter]
  have e3 : loop (n + 1) nv
      { s with quaver_sec := r.time.tv_sec,
               midi := { s.midi with prog_mode := prog_modes.CHANNEL } } a =
      some ({ s with
                midi := { s.midi with
                  prog_mode := prog_modes.CHANNEL,
                  channel := if a.code = KEY_KP4 then Max.max (s.midi.channel - 1) 0
                             else Min.min (s.midi.channel + 1) 15 },
                quaver_sec := a.time.tv_sec }, []) := by
    rw [loop_KEY n nv _ a (hs1 _ _),
      case_KEY_honoured _ a (arrow_mem_function_keys _ ha) hw2,
      func_key_arrow_channel _ _ ha rfl]
  refine ⟨by simp [run, step, e1, e2, e3], ?_⟩
  split <;> omega

/-- Witness of C14: on channel 15, the quaver key, enter and the right arrow
at seconds 10, 11 and 13. -/
theorem C14_channel_change_witness :
    run 1 0 (key_state { MidiState.init with channel := 15 })
        [Input.event (key_event KEY_F9 1 10 0), Input.event (key_event KEY_ENTER 1 11 0),
         Input.event (key_event KEY_KP6 1 13 0)] =
      some ({ key_state { MidiState.init with channel := 15 } with
                midi := { (key_state { MidiState.init with channel := 15 }).midi with
                  prog_mode := prog_modes.CHANNEL,
                  channel := if (key_event KEY_KP6 1 13 0).code = KEY_KP4 then
                      Max.max ((key_state { MidiState.init with channel := 15 }).midi.channel - 1) 0
                    else
                      Min.min ((key_state { MidiState.init with channel := 15 }).midi.channel + 1)
                        15 },
                quaver_sec := (key_event KEY_KP6 1 13 0).time.tv_sec }, []) ∧
    (0 ≤ (if (key_event KEY_KP6 1 13 0).code = KEY_KP4 then
            Max.max ((key_state { MidiState.init with channel := 15 }).midi.channel - 1) 0
          else Min.min ((key_state { MidiState.init with channel := 15 }).midi.channel + 1) 15) ∧
     (if (key_event KEY_KP6 1 13 0).code = KEY_KP4 then
        Max.max ((key_state { MidiState.init with channel := 15 }).midi.channel - 1) 0
      else Min.min ((key_state { MidiState.init with channel := 15 }).midi.channel + 1) 15)
       ≤ 15) :=
  C14_channel_change 0 0 (key_state { MidiState.init with channel := 15 })
    (key_event KEY_F9 1 10 0) (key_event KEY_ENTER 1 11 0) (key_event KEY_KP6 1 13 0)
    rfl rfl rfl (by decide) (by decide) (by decide) (by decide) (by decide)

/-- C15 (stray velocity symbol): a velocity byte that arrives while a key is
expected is passed through and nothing else is sent; the whole state, the
MIDI state and the recorded quaver time included, is unchanged, whether or
not the byte falls inside the quaver window. -/
theorem C15_stray_velocity (n : Nat) (nv : Int) (s : State) (V : input_event)
    (hs : s.expecting = Expecting.KEY) (hV : V.code ∈ numlist) :
    loop (n + 1) nv s V = some (s, [Action.send_key V]) := by
  have h1 := iskey_of_mem_numlist _ hV
  have h2 : V.code ≠ KEY_F9 := (by decide : ∀ x ∈ numlist, x ≠ KEY_F9) _ hV
  have h3 := func_key_of_mem_numlist s.midi _ hV
  rw [loop_KEY n nv s V hs]
  by_cases hw : V.time.tv_sec - s.quaver_sec ≤ FUNCTION_TIMEOUT
  · simp [case_KEY, h1, h2, hw, h3]
  · simp [case_KEY, h1, h2, hw]

/-- Witness of C15: the symbol 3 one second after program start, inside the
window of the initial quaver time 0. -/
theorem C15_stray_velocity_witness :
    loop 1 0 (State.init (key_event 0 0 0 0)) (key_event KEY_3 1 1 0) =
      some (State.init (key_event 0 0 0 0), [Action.send_key (key_event KEY_3 1 1 0)]) :=
  C15_stray_velocity 0 0 (State.init (key_event 0 0 0 0)) (key_event KEY_3 1 1 0) rfl
    (by decide)

/-! ## Facts about the classification of codes -/

theorem keymap_length : keymap.length = 114 := by decide

theorem nummap_length : nummap.length = 13 := by decide

/-- For an `int`, the unsigned comparison with a table size below 2^31 lets
through exactly the indices of the table. -/
theorem to_size_t_lt_iff (x size : Int) (hlo : -2147483648 ≤ x) (hhi : x ≤ 2147483647)
    (h0 : 0 ≤ size) (hs : size ≤ 2147483647) :
    to_size_t x < size ↔ (0 ≤ x ∧ x < size) := by
  unfold to_size_t
  omega

set_option maxRecDepth 100000 in
theorem iskey_iff_mem_below : ∀ n : Nat, n < 114 →
    (iskey (n : Int) = decide ((n : Int) ∈ keylist)) := by
  decide

set_option maxRecDepth 100000 in
theorem isnum_iff_mem_below : ∀ n : Nat, n < 13 →
    (isnum (n : Int) = decide ((n : Int) ∈ numlist)) := by
  decide

theorem keylist_bounds : ∀ k ∈ keylist, 0 ≤ k ∧ k < 114 := by decide

theorem numlist_bounds : ∀ k ∈ numlist, 0 ≤ k ∧ k < 13 := by decide

/-- For an `int`, `iskey` holds exactly for the codes of `keylist`. -/
theorem iskey_iff_mem_keylist (x : Int) (hlo : -2147483648 ≤ x) (hhi : x ≤ 2147483647) :
    iskey x = true ↔ x ∈ keylist := by
  have hsz := to_size_t_lt_iff x (keymap.length : Int) hlo hhi (by simp)
    (by rw [keymap_length]; decide)
  rw [keymap_length] at hsz
  by_cases hx : 0 ≤ x ∧ x < 114
  · obtain ⟨n, rfl⟩ := Int.eq_ofNat_of_zero_le hx.1
    have hn : n < 114 := by omega
    rw [iskey_iff_mem_below n hn]
    simp
  · have h1 : iskey x = false := by
      have : to_size_t x ≥ (keymap.length : Int) := by
        rw [keymap_length]
        have := hsz.not.mpr hx
        push_cast
        omega
      simp [iskey, this]
    have h2 : x ∉ keylist := fun hm => hx (keylist_bounds x hm)
    simp [h1, h2]

/-- For an `int`, `isnum` holds exactly for the codes of `numlist`. -/
theorem isnum_iff_mem_numlist (x : Int) (hlo : -2147483648 ≤ x) (hhi : x ≤ 2147483647) :
    isnum x = true ↔ x ∈ numlist := by
  have hsz := to_size_t_lt_iff x (nummap.length : Int) hlo hhi (by simp)
    (by rw [nummap_length]; decide)
  rw [nummap_length] at hsz
  by_cases hx : 0 ≤ x ∧ x < 13
  · obtain ⟨n, rfl⟩ := Int.eq_ofNat_of_zero_le hx.1
    have hn : n < 13 := by omega
    rw [isnum_iff_mem_below n hn]
    simp
  · have h1 : isnum x = false := by
      have : to_size_t x ≥ (nummap.length : Int) := by
        rw [nummap_length]
        have := hsz.not.mpr hx
        push_cast
        omega
      simp [isnum, this]
    have h2 : x ∉ numlist := fun hm => hx (numlist_bounds x hm)
    simp [h1, h2]

/-- A read that passes the size test of `iskey` or `isnum` is inside the
table. -/
theorem read_some_of_size (map : List Int) (x : Int) (hlo : -2147483648 ≤ x)
    (hhi : x ≤ 2147483647) (hlen : (map.length : Int) ≤ 2147483647)
    (h : to_size_t x < (map.length : Int)) : ∃ v, read map x = some v := by
  have hx := (to_size_t_lt_iff x (map.length : Int) hlo hhi (by simp) hlen).mp h
  have hn : x.toNat < map.length := by omega
  refine ⟨map[x.toNat], ?_⟩
  have h0 : ¬ (x < 0) := by omega
  simp [read, h0, hn]

/-- C16 (classification): for every `int` code, negative codes and codes
beyond the tables included, the table reads of `iskey` and `isnum` stay
inside `keymap` and `nummap`, so both are defined; they are never both true;
`iskey` holds exactly for the 37 distinct codes of `keylist` and `isnum`
exactly for the 8 distinct codes of `numlist`; the quaver key and the
function keys (F1..F8, keypad 4, keypad 6, enter) satisfy neither. -/
theorem C16_classification (x : Int) (hlo : -2147483648 ≤ x) (hhi : x ≤ 2147483647) :
    (iskey x = true ↔ x ∈ keylist) ∧
    (isnum x = true ↔ x ∈ numlist) ∧
    ¬ (iskey x = true ∧ isnum x = true) ∧
    (to_size_t x < (keymap.length : Int) → ∃ v, read keymap x = some v) ∧
    (to_size_t x < (nummap.length : Int) → ∃ v, read nummap x = some v) ∧
    (keylist.length = 37 ∧ keylist.Nodup) ∧
    (numlist.length = 8 ∧ numlist.Nodup) ∧
    (∀ f ∈ KEY_F9 :: function_keys, iskey f = false ∧ isnum f = false) := by
  refine ⟨iskey_iff_mem_keylist x hlo hhi, isnum_iff_mem_numlist x hlo hhi, ?_,
    read_some_of_size keymap x hlo hhi (by rw [keymap_length]; decide),
    read_some_of_size nummap x hlo hhi (by rw [nummap_length]; decide),
    by decide, by decide, by decide⟩
  rintro ⟨hk, hn⟩
  have hk1 := (iskey_iff_mem_keylist x hlo hhi).mp hk
  have hn1 := iskey_of_mem_numlist x ((isnum_iff_mem_numlist x hlo hhi).mp hn)
  rw [hk] at hn1
  exact Bool.noConfusion hn1

/-- Witness of C16: the negative code -1. -/
theorem C16_classification_witness :
    (iskey (-1) = true ↔ (-1 : Int) ∈ keylist) ∧
    (isnum (-1) = true ↔ (-1 : Int) ∈ numlist) ∧
    ¬ (iskey (-1) = true ∧ isnum (-1) = true) ∧
    (to_size_t (-1) < (keymap.length : Int) → ∃ v, read keymap (-1) = some v) ∧
    (to_size_t (-1) < (nummap.length : Int) → ∃ v, read nummap (-1) = some v) ∧
    (keylist.length = 37 ∧ keylist.Nodup) ∧
    (numlist.length = 8 ∧ numlist.Nodup) ∧
    (∀ f ∈ KEY_F9 :: function_keys, iskey f = false ∧ isnum f = false) :=
  C16_classification (-1) (by decide) (by decide)

/-- C17 (passthrough emitter): `send_key` writes exactly three records, in
this order: a record of type `EV_MSC` and code `MSC_SCAN` whose value is the
code of the event and whose time is the time of the event; the event itself
with the same time, type and code and with value 2 replaced by 1, the values
0 and 1 being kept; a record of type `EV_SYN`, code `SYN_REPORT` and value 0.
Sending the event the call leaves behind writes the same key record again:
the replacement of the value is idempotent. -/
theorem C17_send_key (ev : input_event) :
    (send_key ev).1 =
      [ { time := ev.time, type := EV_MSC, code := MSC_SCAN, value := ev.code },
        { time := ev.time, type := ev.type, code := ev.code,
          value := if ev.value = 2 then 1 else ev.value },
        { time := ev.time, type := EV_SYN, code := SYN_REPORT, value := 0 } ] ∧
    (send_key ev).1.length = 3 ∧
    (send_key { ev with value := 2 }).2.value = 1 ∧
    (send_key { ev with value := 0 }).2.value = 0 ∧
    (send_key { ev with value := 1 }).2.value = 1 ∧
    (send_key (send_key ev).2).2 = (send_key ev).2 ∧
    (send_key (send_key ev).2).1.get? 1 = (send_key ev).1.get? 1 := by
  refine ⟨rfl, rfl, rfl, rfl, rfl, ?_, ?_⟩
  · by_cases h : ev.value = 2 <;> simp [send_key, h]
  · by_cases h : ev.value = 2 <;> simp [send_key, h]

/-! ## Facts about the ranges of the MIDI state -/

/-- In `case VELOCITY:` a key byte sends the pending event and jumps back to
`loop`, whatever `isnum` says of it. -/
theorem loop_VELOCITY_flush_of_iskey (n : Nat) (nv : Int) (s : State) (iev : input_event)
    (hs : s.expecting = Expecting.VELOCITY) (hkey : iskey iev.code = true) :
    loop (n + 2) nv s iev =
      some ((case_KEY { s with expecting := Expecting.KEY,
                               prev_iev := (send_key s.prev_iev).2 } iev).1,
            Action.send_key s.prev_iev ::
              (case_KEY { s with expecting := Expecting.KEY,
                                 prev_iev := (send_key s.prev_iev).2 } iev).2) := by
  simp [loop, switch_expecting, case_VELOCITY, hs, hkey]

theorem keymap_entries_le : ∀ v ∈ keymap, v ≤ 36 := by decide

/-- A code that passes `iskey` has a table index, which lies in 0..36. -/
theorem read_keymap_of_iskey (x : Int) (h : iskey x = true) :
    ∃ k, read keymap x = some k ∧ 0 ≤ k ∧ k ≤ 36 := by
  unfold iskey at h
  split at h
  · exact Bool.noConfusion h
  · cases hr : read keymap x with
    | none => rw [hr] at h; exact Bool.noConfusion h
    | some v =>
      rw [hr] at h
      refine ⟨v, rfl, by simpa using h, ?_⟩
      apply keymap_entries_le
      unfold read at hr
      split at hr
      · exact Option.noConfusion hr
      · exact List.getElem?_mem hr

/-- A code that passes `isnum` has an entry in `nummap`. -/
theorem read_nummap_of_isnum (x : Int) (h : isnum x = true) :
    ∃ v, read nummap x = some v := by
  unfold isnum at h
  split at h
  · exact Bool.noConfusion h
  · cases hr : read nummap x with
    | none => rw [hr] at h; exact Bool.noConfusion h
    | some v => exact ⟨v, rfl⟩

/-- Setting a page, a mode, a channel or an octave inside its range keeps the
MIDI state in range. -/
theorem in_range_update (g : MidiState) (h : g.in_range) (c o pp bp : Int) (m : prog_modes)
    (hc : 0 ≤ c ∧ c ≤ 15) (ho : 3 ≤ o ∧ o ≤ 7) (hpp : 0 ≤ pp ∧ pp ≤ 3)
    (hbp : 0 ≤ bp ∧ bp ≤ 3) :
    ({ g with channel := c, octave := o, patch_page := pp, bank_page := bp,
              prog_mode := m } : MidiState).in_range := by
  unfold MidiState.in_range octave_min octave_max at *
  exact ⟨hc, ho, hpp, hbp, h.2.2.2.2.1, h.2.2.2.2.2⟩

theorem min_channel_range (c : Int) (h0 : 0 ≤ c) (h15 : c ≤ 15) :
    0 ≤ min (c - 1) 0 ∧ min (c - 1) 0 ≤ 15 := by
  unfold min
  split <;> omega

theorem max_channel_range (c : Int) (h0 : 0 ≤ c) (h15 : c ≤ 15) :
    0 ≤ max (c + 1) 15 ∧ max (c + 1) 15 ≤ 15 := by
  unfold max
  split <;> omega

theorem min_octave_range (o : Int) (h3 : 3 ≤ o) (h7 : o ≤ 7) :
    3 ≤ min (o - 1) octave_min ∧ min (o - 1) octave_min ≤ 7 := by
  unfold min octave_min
  split <;> omega

theorem max_octave_range (o : Int) (h3 : 3 ≤ o) (h7 : o ≤ 7) :
    3 ≤ max (o + 1) octave_max ∧ max (o + 1) octave_max ≤ 7 := by
  unfold max octave_max
  split <;> omega

/-- `func_key` keeps the MIDI state in range. -/
theorem func_key_in_range (g : MidiState) (x : Int) (h : g.in_range) :
    (func_key g x).2.in_range := by
  have hc : 0 ≤ g.channel ∧ g.channel ≤ 15 := h.1
  have ho : 3 ≤ g.octave ∧ g.octave ≤ 7 := h.2.1
  have hpp : 0 ≤ g.patch_page ∧ g.patch_page ≤ 3 := h.2.2.1
  have hbp : 0 ≤ g.bank_page ∧ g.bank_page ≤ 3 := h.2.2.2.1
  unfold func_key
  by_cases c1 : x = KEY_F1
  · rw [if_pos c1]
    exact in_range_update g h _ _ 0 _ _ hc ho (by decide) hbp
  rw [if_neg c1]
  by_cases c2 : x = KEY_F2
  · rw [if_pos c2]
    exact in_range_update g h _ _ 1 _ _ hc ho (by decide) hbp
  rw [if_neg c2]
  by_cases c3 : x = KEY_F3
  · rw [if_pos c3]
    exact in_range_update g h _ _ 2 _ _ hc ho (by decide) hbp
  rw [if_neg c3]
  by_cases c4 : x = KEY_F4
  · rw [if_pos c4]
    exact in_range_update g h _ _ 3 _ _ hc ho (by decide) hbp
  rw [if_neg c4]
  by_cases c5 : x = KEY_F5
  · rw [if_pos c5]
    exact in_range_update g h _ _ _ 0 _ hc ho hpp (by decide)
  rw [if_neg c5]
  by_cases c6 : x = KEY_F6
  · rw [if_pos c6]
    exact in_range_update g h _ _ _ 1 _ hc ho hpp (by decide)
  rw [if_neg c6]
  by_cases c7 : x = KEY_F7
  · rw [if_pos c7]
    exact in_range_update g h _ _ _ 2 _ hc ho hpp (by decide)
  rw [if_neg c7]
  by_cases c8 : x = KEY_F8
  · rw [if_pos c8]
    exact in_range_update g h _ _ _ 3 _ hc ho hpp (by decide)
  rw [if_neg c8]
  by_cases c9 : x = KEY_KP4
  · rw [if_pos c9]
    by_cases hm : g.prog_mode = prog_modes.CHANNEL
    · rw [if_pos hm]
      exact in_range_update g h _ _ _ _ _ (min_channel_range _ hc.1 hc.2) ho hpp hbp
    · rw [if_neg hm]
      exact in_range_update g h _ _ _ _ _ hc (min_octave_range _ ho.1 ho.2) hpp hbp
  rw [if_neg c9]
  by_cases c10 : x = KEY_KP6
  · rw [if_pos c10]
    by_cases hm : g.prog_mode = prog_modes.CHANNEL
    · rw [if_pos hm]
      exact in_range_update g h _ _ _ _ _ (max_channel_range _ hc.1 hc.2) ho hpp hbp
    · rw [if_neg hm]
      exact in_range_update g h _ _ _ _ _ hc (max_octave_range _ ho.1 ho.2) hpp hbp
  rw [if_neg c10]
  by_cases c11 : x = KEY_ENTER
  · rw [if_pos c11]
    exact in_range_update g h _ _ _ _ _ hc ho hpp hbp
  rw [if_neg c11]
  exact h

/-- `case KEY:` keeps a well-formed state well-formed. -/
theorem case_KEY_well_formed (s : State) (e : input_event) (h : s.well_formed) :
    (case_KEY s e).1.well_formed := by
  obtain ⟨hr, hp⟩ := h
  unfold case_KEY
  by_cases h1 : iskey e.code = true
  · rw [if_pos h1]
    exact ⟨hr, fun _ => h1⟩
  · rw [if_neg h1]
    by_cases h2 : e.code = KEY_F9
    · rw [if_pos h2]
      exact ⟨hr, hp⟩
    · rw [if_neg h2]
      by_cases h3 : e.time.tv_sec - s.quaver_sec ≤ FUNCTION_TIMEOUT
      · rw [if_pos h3]
        dsimp only
        by_cases h4 : (func_key s.midi e.code).1 ≠ 0
        · rw [if_pos h4]
          exact ⟨func_key_in_range s.midi e.code hr, hp⟩
        · rw [if_neg h4]
          exact ⟨func_key_in_range s.midi e.code hr, hp⟩
      · rw [if_neg h3]
        exact ⟨hr, hp⟩

/-- Storing a patch and a bank inside 0..127 keeps the MIDI state in range. -/
theorem in_range_update_patch (g : MidiState) (h : g.in_range) (p b : Int) (m : prog_modes)
    (hp : 0 ≤ p ∧ p ≤ 127) (hb : 0 ≤ b ∧ b ≤ 127) :
    ({ g with patch := p, bank := b, prog_mode := m } : MidiState).in_range := by
  unfold MidiState.in_range octave_min octave_max at *
  exact ⟨h.1, h.2.1, h.2.2.1, h.2.2.2.1, hp, hb⟩

/-- A key index 0..36 cut off at 31 plus 32 times a page 0..3 lies in 0..127. -/
theorem paged_value_range (k page : Int) (hk0 : 0 ≤ k) (hk : k ≤ 36) (hp0 : 0 ≤ page)
    (hp : page ≤ 3) : 0 ≤ max k 31 + 32 * page ∧ max k 31 + 32 * page ≤ 127 := by
  unfold max
  split <;> omega

/-- The resolution of a buffered key and a velocity byte returns and keeps
the state well-formed. -/
theorem resolve_well_formed (nv : Int) (s : State) (e : input_event)
    (hr : s.midi.in_range) (hk : iskey s.prev_iev.code = true) (hn : isnum e.code = true) :
    ∃ s1 acts, resolve nv s e = some (s1, acts) ∧ s1.well_formed := by
  obtain ⟨k, hk1, hk0, hk36⟩ := read_keymap_of_iskey _ hk
  obtain ⟨v, hv⟩ := read_nummap_of_isnum _ hn
  have hpp : 0 ≤ s.midi.patch_page ∧ s.midi.patch_page ≤ 3 := hr.2.2.1
  have hbp : 0 ≤ s.midi.bank_page ∧ s.midi.bank_page ≤ 3 := hr.2.2.2.1
  have hpa : 0 ≤ s.midi.patch ∧ s.midi.patch ≤ 127 := hr.2.2.2.2.1
  have hba : 0 ≤ s.midi.bank ∧ s.midi.bank ≤ 127 := hr.2.2.2.2.2
  cases hm : s.midi.prog_mode with
  | PATCH =>
    refine ⟨_, _, by simp only [resolve, hm, hk1, Option.map_some']; rfl, ?_, ?_⟩
    · exact in_range_update_patch s.midi hr _ _ _
        (paged_value_range k _ hk0 hk36 hpp.1 hpp.2) hba
    · intro hx; cases hx
  | BANK =>
    refine ⟨_, _, by simp only [resolve, hm, hk1, Option.map_some']; rfl, ?_, ?_⟩
    · exact in_range_update_patch s.midi hr _ _ _ hpa
        (paged_value_range k _ hk0 hk36 hbp.1 hbp.2)
    · intro hx; cases hx
  | MUSIC =>
    refine ⟨_, _, by simp only [resolve, hm, hk1, hv, Option.map_some', Option.some_bind]; rfl,
      ?_, ?_⟩
    · exact hr
    · intro hx; cases hx
  | CHANNEL =>
    refine ⟨_, _, by simp only [resolve, hm, hk1, hv, Option.map_some', Option.some_bind]; rfl,
      ?_, ?_⟩
    · exact hr
    · intro hx; cases hx

/-- C18 (range invariant): from a state whose channel is in 0..15, octave in
3..7, patch page and bank page in 0..3, patch and bank in 0..127, and whose
buffered event, when a velocity byte is expected, is a key, the decoder
returns on every event, in either value of `expecting` and with the window
open or closed, with a state that satisfies the same ranges; so does the
state after a timeout. -/
theorem C18_range_invariant (n : Nat) (nv : Int) (s : State) (e : input_event)
    (h : s.well_formed) :
    (∃ s1 acts, loop (n + 2) nv s e = some (s1, acts) ∧ s1.well_formed) ∧
    (select_timeout s).1.well_formed := by
  constructor
  · cases hs : s.expecting with
    | KEY =>
      exact ⟨_, _, loop_KEY (n + 1) nv s e hs, case_KEY_well_formed s e h⟩
    | VELOCITY =>
      have hflush : ∀ p : input_event,
          ({ s with expecting := Expecting.KEY, prev_iev := p } : State).well_formed :=
        fun _ => ⟨h.1, fun hx => by cases hx⟩
      by_cases hk : iskey e.code = true
      · exact ⟨_, _, loop_VELOCITY_flush_of_iskey n nv s e hs hk,
          case_KEY_well_formed _ e (hflush _)⟩
      · have hk1 : iskey e.code = false := by simpa using hk
        by_cases hn : isnum e.code = true
        · obtain ⟨s1, acts, hr, hw⟩ := resolve_well_formed nv
            { s with expecting := Expecting.KEY } e h.1 (h.2 hs) hn
          exact ⟨s1, acts, by rw [loop_VELOCITY_resolve (n + 1) nv s e hs hk1 hn, hr], hw⟩
        · have hn1 : isnum e.code = false := by simpa using hn
          exact ⟨_, _, loop_VELOCITY_flush n nv s e hs hn1, case_KEY_well_formed _ e (hflush _)⟩
  · unfold select_timeout
    cases hs : s.expecting with
    | KEY => exact h
    | VELOCITY => exact ⟨h.1, fun hx => by cases hx⟩

/-- Witness of C18: the key Z pending on patch page 3 in `PATCH` mode, then
the symbol 1. -/
theorem C18_range_invariant_witness :
    (∃ s1 acts,
      loop 2 0
        (pending_state { MidiState.init with patch_page := 3, prog_mode := prog_modes.PATCH }
          KEY_Z)
        (key_event KEY_1 1 5 2500) = some (s1, acts) ∧ s1.well_formed) ∧
    (select_timeout
      (pending_state { MidiState.init with patch_page := 3, prog_mode := prog_modes.PATCH }
        KEY_Z)).1.well_formed :=
  C18_range_invariant 0 0
    (pending_state { MidiState.init with patch_page := 3, prog_mode := prog_modes.PATCH } KEY_Z)
    (key_event KEY_1 1 5 2500) (by decide)

/-! ## Facts about patch and bank pages -/

theorem key_of_index : ∀ k : Nat, k < 37 →
    keylist.getD k 0 ∈ keylist ∧ keyIndex (keylist.getD k 0) = (k : Int) := by
  decide

/-- Every index 0..36 is the index of a music key. -/
theorem exists_key_of_index (i : Int) (h0 : 0 ≤ i) (h36 : i ≤ 36) :
    ∃ P : input_event, P.code ∈ keylist ∧ keyIndex P.code = i := by
  obtain ⟨k, rfl⟩ := Int.eq_ofNat_of_zero_le h0
  have hk : k < 37 := by omega
  exact ⟨key_event (keylist.getD k 0) 1 0 0, (key_of_index k hk).1, (key_of_index k hk).2⟩

/-- The program a music key selects on a patch page. -/
theorem selects_program_iff (nv : Int) (g : MidiState) (V : input_event) (page : Int)
    (P : input_event) (v : Int) (hV : V.code ∈ numlist) (hP : P.code ∈ keylist) :
    selects_program nv g V page P v ↔ v = Min.min (keyIndex P.code) 31 + 32 * page := by
  unfold selects_program
  rw [loop_VELOCITY_resolve 0 nv (patch_state g page P) V rfl (iskey_of_mem_numlist _ hV)
    (isnum_of_mem_numlist _ hV),
    resolve_patch nv { patch_state g page P with expecting := Expecting.KEY } V rfl hP]
  constructor
  · rintro ⟨s1, h⟩
    simp only [patch_state, Option.some.injEq, Prod.mk.injEq, List.cons.injEq,
      Action.send_event.injEq, snd_seq_event.pgmchange.injEq] at h
    exact h.2.1.2.symm
  · intro h
    subst h
    exact ⟨_, rfl⟩

/-- The bank number a music key selects on a bank page. -/
theorem selects_bank_iff (nv : Int) (g : MidiState) (V : input_event) (page : Int)
    (P : input_event) (v : Int) (hV : V.code ∈ numlist) (hP : P.code ∈ keylist) :
    selects_bank nv g V page P v ↔ v = Min.min (keyIndex P.code) 31 + 32 * page := by
  unfold selects_bank
  rw [loop_VELOCITY_resolve 0 nv (bank_state g page P) V rfl (iskey_of_mem_numlist _ hV)
    (isnum_of_mem_numlist _ hV),
    resolve_bank nv { bank_state g page P with expecting := Expecting.KEY } V rfl hP]
  constructor
  · rintro ⟨s1, h⟩
    simp only [bank_state, Option.some.injEq, Prod.mk.injEq, List.cons.injEq,
      Action.send_event.injEq, snd_seq_event.controller.injEq] at h
    exact h.2.1.2.2.symm
  · intro h
    subst h
    exact ⟨_, rfl⟩

/-- The values `min k 31 + 32 * page` over the key indices k = 0..36 are
exactly the 32 numbers from `32 * page`. -/
theorem paged_values (page v : Int) :
    (∃ P : input_event, P.code ∈ keylist ∧ v = Min.min (keyIndex P.code) 31 + 32 * page) ↔
      (32 * page ≤ v ∧ v ≤ 32 * page + 31) := by
  constructor
  · rintro ⟨P, hP, hv⟩
    have hr := keyIndex_range_of_mem_keylist _ hP
    omega
  · rintro ⟨h1, h2⟩
    obtain ⟨P, hP, hk⟩ := exists_key_of_index (v - 32 * page) (by omega) (by omega)
    exact ⟨P, hP, by rw [hk]; omega⟩

/-- C19 (pages of 32): for every velocity byte and every page 0..3, the
program numbers the 37 music keys select on a patch page are exactly
`32 * page .. 32 * page + 31`; the keys of index 31..36 all select
`32 * page + 31`; a program number is selected on one page only; and every
program 0..127 is selected by some key on some page 0..3.  The bank pages
give the bank numbers in the same way. -/
theorem C19_pages_of_32 (nv : Int) (g : MidiState) (V : input_event)
    (hV : V.code ∈ numlist) :
    ((∀ page v : Int, 0 ≤ page → page ≤ 3 →
        ((∃ P : input_event, P.code ∈ keylist ∧ selects_program nv g V page P v) ↔
          (32 * page ≤ v ∧ v ≤ 32 * page + 31))) ∧
      (∀ (page : Int) (P : input_event), P.code ∈ keylist → 31 ≤ keyIndex P.code →
        selects_program nv g V page P (32 * page + 31)) ∧
      (∀ (page page' v : Int) (P P' : input_event), P.code ∈ keylist → P'.code ∈ keylist →
        selects_program nv g V page P v → selects_program nv g V page' P' v → page = page') ∧
      (∀ v : Int, 0 ≤ v → v ≤ 127 →
        ∃ page : Int, 0 ≤ page ∧ page ≤ 3 ∧
          ∃ P : input_event, P.code ∈ keylist ∧ selects_program nv g V page P v)) ∧
    ((∀ page v : Int, 0 ≤ page → page ≤ 3 →
        ((∃ P : input_event, P.code ∈ keylist ∧ selects_bank nv g V page P v) ↔
          (32 * page ≤ v ∧ v ≤ 32 * page + 31))) ∧
      (∀ (page : Int) (P : input_event), P.code ∈ keylist → 31 ≤ keyIndex P.code →
        selects_bank nv g V page P (32 * page + 31)) ∧
      (∀ (page page' v : Int) (P P' : input_event), P.code ∈ keylist → P'.code ∈ keylist →
        selects_bank nv g V page P v → selects_bank nv g V page' P' v → page = page') ∧
      (∀ v : Int, 0 ≤ v → v ≤ 127 →
        ∃ page : Int, 0 ≤ page ∧ page ≤ 3 ∧
          ∃ P : input_event, P.code ∈ keylist ∧ selects_bank nv g V page P v)) := by
  refine ⟨⟨?_, ?_, ?_, ?_⟩, ⟨?_, ?_, ?_, ?_⟩⟩
  · intro page v _ _
    rw [← paged_values page v]
    constructor
    · rintro ⟨P, hP, h⟩
      exact ⟨P, hP, (selects_program_iff nv g V page P v hV hP).mp h⟩
    · rintro ⟨P, hP, h⟩
      exact ⟨P, hP, (selects_program_iff nv g V page P v hV hP).mpr h⟩
  · intro page P hP h31
    rw [selects_program_iff nv g V page P _ hV hP]
    omega
  · intro page page' v P P' hP hP' h h'
    rw [selects_program_iff nv g V page P v hV hP] at h
    rw [selects_program_iff nv g V page' P' v hV hP'] at h'
    have hr := keyIndex_range_of_mem_keylist _ hP
    have hr' := keyIndex_range_of_mem_keylist _ hP'
    omega
  · intro v h0 h127
    obtain ⟨P, hP, h⟩ := (paged_values (v / 32) v).mpr (by omega)
    exact ⟨v / 32, by omega, by omega, P, hP,
      (selects_program_iff nv g V (v / 32) P v hV hP).mpr h⟩
  · intro page v _ _
    rw [← paged_values page v]
    constructor
    · rintro ⟨P, hP, h⟩
      exact ⟨P, hP, (selects_bank_iff nv g V page P v hV hP).mp h⟩
    · rintro ⟨P, hP, h⟩
      exact ⟨P, hP, (selects_bank_iff nv g V page P v hV hP).mpr h⟩
  · intro page P hP h31
    rw [selects_bank_iff nv g V page P _ hV hP]
    omega
  · intro page page' v P P' hP hP' h h'
    rw [selects_bank_iff nv g V page P v hV hP] at h
    rw [selects_bank_iff nv g V page' P' v hV hP'] at h'
    have hr := keyIndex_range_of_mem_keylist _ hP
    have hr' := keyIndex_range_of_mem_keylist _ hP'
    omega
  · intro v h0 h127
    obtain ⟨P, hP, h⟩ := (paged_values (v / 32) v).mpr (by omega)
    exact ⟨v / 32, by omega, by omega, P, hP,
      (selects_bank_iff nv g V (v / 32) P v hV hP).mpr h⟩

/-- Witness of C19: the initial MIDI state and the velocity symbol 1. -/
theorem C19_pages_of_32_witness :
    ((∀ page v : Int, 0 ≤ page → page ≤ 3 →
        ((∃ P : input_event, P.code ∈ keylist ∧
            selects_program 0 MidiState.init (key_event KEY_1 1 5 0) page P v) ↔
          (32 * page ≤ v ∧ v ≤ 32 * page + 31))) ∧
      (∀ (page : Int) (P : input_event), P.code ∈ keylist → 31 ≤ keyIndex P.code →
        selects_program 0 MidiState.init (key_event KEY_1 1 5 0) page P (32 * page + 31)) ∧
      (∀ (page page' v : Int) (P P' : input_event), P.code ∈ keylist → P'.code ∈ keylist →
        selects_program 0 MidiState.init (key_event KEY_1 1 5 0) page P v →
        selects_program 0 MidiState.init (key_event KEY_1 1 5 0) page' P' v → page = page') ∧
      (∀ v : Int, 0 ≤ v → v ≤ 127 →
        ∃ page : Int, 0 ≤ page ∧ page ≤ 3 ∧
          ∃ P : input_event, P.code ∈ keylist ∧
            selects_program 0 MidiState.init (key_event KEY_1 1 5 0) page P v)) ∧
    ((∀ page v : Int, 0 ≤ page → page ≤ 3 →
        ((∃ P : input_event, P.code ∈ keylist ∧
            selects_bank 0 MidiState.init (key_event KEY_1 1 5 0) page P v) ↔
          (32 * page ≤ v ∧ v ≤ 32 * page + 31))) ∧
      (∀ (page : Int) (P : input_event), P.code ∈ keylist → 31 ≤ keyIndex P.code →
        selects_bank 0 MidiState.init (key_event KEY_1 1 5 0) page P (32 * page + 31)) ∧
      (∀ (page page' v : Int) (P P' : input_event), P.code ∈ keylist → P'.code ∈ keylist →
        selects_bank 0 MidiState.init (key_event KEY_1 1 5 0) page P v →
        selects_bank 0 MidiState.init (key_event KEY_1 1 5 0) page' P' v → page = page') ∧
      (∀ v : Int, 0 ≤ v → v ≤ 127 →
        ∃ page : Int, 0 ≤ page ∧ page ≤ 3 ∧
          ∃ P : input_event, P.code ∈ keylist ∧
            selects_bank 0 MidiState.init (key_event KEY_1 1 5 0) page P v)) :=
  C19_pages_of_32 0 MidiState.init (key_event KEY_1 1 5 0) (by decide)

set_option maxRecDepth 100000 in
/-- C20, as stated, fails: with the key T pending and the no-velocity flag
clear, index 0 of the velocity table (the symbol 0) resolves to velocity 0 and
index 1 (the symbol 1) to velocity 127, so index 0 is not the loudest. -/
theorem C20_counterexample :
    velocityLevel KEY_0 = 0 ∧ velocityLevel KEY_1 = 1 ∧
    loop 1 0 (pending_state MidiState.init KEY_T) (key_event KEY_0 1 5 2500) =
      some ({ pending_state MidiState.init KEY_T with
                prev_iev := key_event KEY_0 1 5 2500, expecting := Expecting.KEY },
        [Action.send_event (snd_seq_event.noteon 0 60 0)]) ∧
    loop 1 0 (pending_state MidiState.init KEY_T) (key_event KEY_1 1 5 2500) =
      some ({ pending_state MidiState.init KEY_T with
                prev_iev := key_event KEY_1 1 5 2500, expecting := Expecting.KEY },
        [Action.send_event (snd_seq_event.noteon 0 60 127)]) ∧
    ¬ ((0 : Int) ≥ 127) := by
  decide

/-- C20 (amended): in Music mode with the no-velocity flag clear and a music
key pending, the velocity symbols of table indices i < j in 1..7 resolve to
the velocities 127 / i and 127 / j with 127 / i ≥ 127 / j, none above 127,
which is the velocity of index 1; the symbol of index 0 resolves to velocity
0, below all of them. -/
theorem C20_velocity_order (n : Nat) (s : State) (V0 Vi Vj : input_event) (i j : Int)
    (hs : s.expecting = Expecting.VELOCITY) (hm : s.midi.prog_mode = prog_modes.MUSIC)
    (hP : s.prev_iev.code ∈ keylist)
    (h0 : V0.code ∈ numlist) (hi : Vi.code ∈ numlist) (hj : Vj.code ∈ numlist)
    (hl0 : velocityLevel V0.code = 0) (hli : velocityLevel Vi.code = i)
    (hlj : velocityLevel Vj.code = j) (h1i : 1 ≤ i) (hij : i < j) :
    loop (n + 1) 0 s Vi =
      some ({ s with prev_iev := Vi, expecting := Expecting.KEY },
        [Action.send_event (snd_seq_event.noteon s.midi.channel
          ((keyIndex s.prev_iev.code - 19) + 12 * s.midi.octave) (Int.tdiv 127 i))]) ∧
    loop (n + 1) 0 s Vj =
      some ({ s with prev_iev := Vj, expecting := Expecting.KEY },
        [Action.send_event (snd_seq_event.noteon s.midi.channel
          ((keyIndex s.prev_iev.code - 19) + 12 * s.midi.octave) (Int.tdiv 127 j))]) ∧
    loop (n + 1) 0 s V0 =
      some ({ s with prev_iev := V0, expecting := Expecting.KEY },
        [Action.send_event (snd_seq_event.noteon s.midi.channel
          ((keyIndex s.prev_iev.code - 19) + 12 * s.midi.octave) 0)]) ∧
    Int.tdiv 127 i ≥ Int.tdiv 127 j ∧ Int.tdiv 127 i ≤ Int.tdiv 127 1 ∧
    Int.tdiv 127 1 = 127 ∧ 0 < Int.tdiv 127 j := by
  have hj7 : j ≤ 7 := by rw [← hlj]; exact (velocityLevel_range_of_mem_numlist _ hj).2
  have step : ∀ (V : input_event) (L : Int), V.code ∈ numlist → velocityLevel V.code = L →
      loop (n + 1) 0 s V =
        some ({ s with prev_iev := V, expecting := Expecting.KEY },
          [Action.send_event (snd_seq_event.noteon s.midi.channel
            ((keyIndex s.prev_iev.code - 19) + 12 * s.midi.octave)
            (if L = 0 then 0 else Int.tdiv 127 L))]) := by
    intro V L hV hL
    rw [loop_VELOCITY_resolve n 0 s V hs (iskey_of_mem_numlist _ hV)
      (isnum_of_mem_numlist _ hV)]
    have hr := resolve_note 0 { s with expecting := Expecting.KEY } V prog_modes.MUSIC hm
      (by decide) (by decide) hP hV
    simp only [hL, ne_eq, not_true_eq_false, if_false] at hr
    exact hr
  have hi0 : ¬ (i = 0) := by omega
  have hj0 : ¬ (j = 0) := by omega
  have ei := step Vi i hi hli
  have ej := step Vj j hj hlj
  have e0 := step V0 0 h0 hl0
  simp only [hi0, hj0, if_false, if_true] at ei ej e0
  refine ⟨ei, ej, e0, ?_⟩
  have hic : i = 1 ∨ i = 2 ∨ i = 3 ∨ i = 4 ∨ i = 5 ∨ i = 6 := by omega
  have hjc : j = 2 ∨ j = 3 ∨ j = 4 ∨ j = 5 ∨ j = 6 ∨ j = 7 := by omega
  rcases hic with h | h | h | h | h | h <;> subst h <;>
    rcases hjc with h | h | h | h | h | h <;> subst h <;>
    first
      | (exfalso; omega)
      | decide

/-- Witness of C20: the key T pending, and the symbols 0, 1 and 7. -/
theorem C20_velocity_order_witness :
    loop 1 0 (pending_state MidiState.init KEY_T) (key_event KEY_1 1 5 2500) =
      some ({ pending_state MidiState.init KEY_T with
                prev_iev := key_event KEY_1 1 5 2500, expecting := Expecting.KEY },
        [Action.send_event (snd_seq_event.noteon
          (pending_state MidiState.init KEY_T).midi.channel
          ((keyIndex (pending_state MidiState.init KEY_T).prev_iev.code - 19) +
            12 * (pending_state MidiState.init KEY_T).midi.octave) (Int.tdiv 127 1))]) ∧
    loop 1 0 (pending_state MidiState.init KEY_T) (key_event KEY_7 1 5 2500) =
      some ({ pending_state MidiState.init KEY_T with
                prev_iev := key_event KEY_7 1 5 2500, expecting := Expecting.KEY },
        [Action.send_event (snd_seq_event.noteon
          (pending_state MidiState.init KEY_T).midi.channel
          ((keyIndex (pending_state MidiState.init KEY_T).prev_iev.code - 19) +
            12 * (pending_state MidiState.init KEY_T).midi.octave) (Int.tdiv 127 7))]) ∧
    loop 1 0 (pending_state MidiState.init KEY_T) (key_event KEY_0 1 5 2500) =
      some ({ pending_state MidiState.init KEY_T with
                prev_iev := key_event KEY_0 1 5 2500, expecting := Expecting.KEY },
        [Action.send_event (snd_seq_event.noteon
          (pending_state MidiState.init KEY_T).midi.channel
          ((keyIndex (pending_state MidiState.init KEY_T).prev_iev.code - 19) +
            12 * (pending_state MidiState.init KEY_T).midi.octave) 0)]) ∧
    Int.tdiv 127 1 ≥ Int.tdiv 127 7 ∧ Int.tdiv 127 1 ≤ Int.tdiv 127 1 ∧
    Int.tdiv 127 1 = 127 ∧ 0 < Int.tdiv 127 7 :=
  C20_velocity_order 0 (pending_state MidiState.init KEY_T) (key_event KEY_0 1 5 2500)
    (key_event KEY_1 1 5 2500) (key_event KEY_7 1 5 2500) 1 7 rfl rfl (by decide)
    (by decide) (by decide) (by decide) (by decide) (by decide) (by decide) (by decide)
    (by decide)

/-! ## Facts about sequences of inputs -/

/-- The two shapes of the result of `case KEY:`: a key byte is buffered and
nothing is sent; any other code leaves `expecting` and the buffer alone and
sends nothing or passes the event itself. -/
theorem case_KEY_cases (s : State) (e : input_event) :
    (iskey e.code = true ∧
      case_KEY s e = ({ s with prev_iev := e, expecting := Expecting.VELOCITY }, [])) ∨
    (iskey e.code = false ∧ (case_KEY s e).1.expecting = s.expecting ∧
      (case_KEY s e).1.prev_iev = s.prev_iev ∧
      ((case_KEY s e).2 = [] ∨
        ((case_KEY s e).2 = [Action.send_key e] ∧ (case_KEY s e).1 = s))) := by
  by_cases h1 : iskey e.code = true
  · exact Or.inl ⟨h1, case_KEY_of_iskey s e h1⟩
  · have h1f : iskey e.code = false := by simpa using h1
    refine Or.inr ⟨h1f, ?_⟩
    unfold case_KEY
    rw [if_neg h1]
    by_cases h2 : e.code = KEY_F9
    · rw [if_pos h2]
      exact ⟨rfl, rfl, Or.inl rfl⟩
    · rw [if_neg h2]
      by_cases h3 : e.time.tv_sec - s.quaver_sec ≤ FUNCTION_TIMEOUT
      · rw [if_pos h3]
        dsimp only
        by_cases h4 : (func_key s.midi e.code).1 ≠ 0
        · rw [if_pos h4]
          exact ⟨rfl, rfl, Or.inl rfl⟩
        · rw [if_neg h4]
          refine ⟨rfl, rfl, Or.inr ⟨rfl, ?_⟩⟩
          have hfk : (func_key s.midi e.code).2 = s.midi := by
            have h40 : (func_key s.midi e.code).1 = 0 := by simpa using h4
            by_cases hm : e.code ∈ function_keys
            · rw [func_key_fst_of_mem s.midi e.code hm] at h40
              exact absurd h40 (by decide)
            · simp only [function_keys, page_select_keys, List.cons_append, List.nil_append,
                List.mem_cons, List.mem_singleton, List.not_mem_nil, or_false, not_or] at hm
              obtain ⟨c1, c2, c3, c4, c5, c6, c7, c8, c9, c10, c11⟩ := hm
              unfold func_key
              rw [if_neg c1, if_neg c2, if_neg c3, if_neg c4, if_neg c5, if_neg c6, if_neg c7,
                if_neg c8, if_neg c9, if_neg c10, if_neg c11]
          rw [hfk]
      · rw [if_neg h3]
        exact ⟨rfl, rfl, Or.inr ⟨rfl, rfl⟩⟩

/-- The resolution of a buffered key and a velocity byte returns, sends one
sequencer event and leaves the decoder expecting a key. -/
theorem resolve_returns (nv : Int) (s : State) (e : input_event)
    (hk : iskey s.prev_iev.code = true) (hn : isnum e.code = true) :
    ∃ s1 ev, resolve nv s e = some (s1, [Action.send_event ev]) ∧
      s1.expecting = Expecting.KEY := by
  obtain ⟨k, hk1, _, _⟩ := read_keymap_of_iskey _ hk
  obtain ⟨v, hv⟩ := read_nummap_of_isnum _ hn
  cases hm : s.midi.prog_mode with
  | PATCH =>
    exact ⟨_, _, by simp only [resolve, hm, hk1, Option.map_some']; rfl, rfl⟩
  | BANK =>
    exact ⟨_, _, by simp only [resolve, hm, hk1, Option.map_some']; rfl, rfl⟩
  | MUSIC =>
    exact ⟨_, _, by simp only [resolve, hm, hk1, hv, Option.map_some', Option.some_bind]; rfl,
      rfl⟩
  | CHANNEL =>
    exact ⟨_, _, by simp only [resolve, hm, hk1, hv, Option.map_some', Option.some_bind]; rfl,
      rfl⟩

/-- The three ways one event is processed: in `case KEY:`; in
`case VELOCITY:` by sending the buffered event and running `case KEY:` on the
same event; in `case VELOCITY:` by resolving the buffered key with a velocity
byte.  In each of them the decoder returns. -/
theorem loop_cases (n : Nat) (nv : Int) (s : State) (e : input_event) (h : s.pending_ok) :
    ∃ s1 acts, loop (n + 2) nv s e = some (s1, acts) ∧
      ((s.expecting = Expecting.KEY ∧ s1 = (case_KEY s e).1 ∧ acts = (case_KEY s e).2) ∨
       (s.expecting = Expecting.VELOCITY ∧ (iskey e.code = true ∨ isnum e.code = false) ∧
         s1 = (case_KEY { s with expecting := Expecting.KEY,
                                 prev_iev := (send_key s.prev_iev).2 } e).1 ∧
         acts = Action.send_key s.prev_iev ::
           (case_KEY { s with expecting := Expecting.KEY,
                              prev_iev := (send_key s.prev_iev).2 } e).2) ∨
       (s.expecting = Expecting.VELOCITY ∧ iskey e.code = false ∧ isnum e.code = true ∧
         s1.expecting = Expecting.KEY ∧ ∃ ev, acts = [Action.send_event ev])) := by
  cases hs : s.expecting with
  | KEY =>
    exact ⟨_, _, loop_KEY (n + 1) nv s e hs, Or.inl ⟨rfl, rfl, rfl⟩⟩
  | VELOCITY =>
    by_cases hk : iskey e.code = true
    · exact ⟨_, _, loop_VELOCITY_flush_of_iskey n nv s e hs hk,
        Or.inr (Or.inl ⟨rfl, Or.inl hk, rfl, rfl⟩)⟩
    · have hk1 : iskey e.code = false := by simpa using hk
      by_cases hn : isnum e.code = true
      · obtain ⟨s1, ev, hr, he⟩ := resolve_returns nv
          { s with expecting := Expecting.KEY } e (h hs) hn
        exact ⟨s1, _, by rw [loop_VELOCITY_resolve (n + 1) nv s e hs hk1 hn, hr],
          Or.inr (Or.inr ⟨rfl, hk1, hn, he, ev, rfl⟩)⟩
      · have hn1 : isnum e.code = false := by simpa using hn
        exact ⟨_, _, loop_VELOCITY_flush n nv s e hs hn1,
          Or.inr (Or.inl ⟨rfl, Or.inr hn1, rfl, rfl⟩)⟩

theorem pending_of_KEY (s : State) (h : s.expecting = Expecting.KEY) : s.pending = [] := by
  simp [State.pending, h]

theorem pending_of_VELOCITY (s : State) (h : s.expecting = Expecting.VELOCITY) :
    s.pending = [s.prev_iev] := by
  simp [State.pending, h]

/-- `case KEY:` from a state that expects a key: the buffer invariant holds
afterwards, no sequencer event is sent, and the event is either buffered,
passed through or taken as a command. -/
theorem case_KEY_facts (s : State) (e : input_event) (hs : s.expecting = Expecting.KEY) :
    (case_KEY s e).1.pending_ok ∧
    midi_messages (case_KEY s e).2 = [] ∧
    (passthroughs (case_KEY s e).2 ++ (case_KEY s e).1.pending).Sublist [e] ∧
    (e.code ≠ KEY_F9 → e.code ∉ function_keys →
      passthroughs (case_KEY s e).2 ++ (case_KEY s e).1.pending = [e]) := by
  rcases case_KEY_cases s e with ⟨hk, hc⟩ | ⟨hk, hexp, _, hacts⟩
  · rw [hc]
    refine ⟨fun _ => hk, rfl, ?_, fun _ _ => ?_⟩ <;>
      simp [passthroughs, State.pending]
  · have hexp1 : (case_KEY s e).1.expecting = Expecting.KEY := by rw [hexp, hs]
    have hp := pending_of_KEY _ hexp1
    refine ⟨fun hx => (by rw [hexp1] at hx; cases hx), ?_, ?_, ?_⟩
    · rcases hacts with ha | ⟨ha, _⟩ <;> rw [ha] <;> simp [midi_messages]
    · rcases hacts with ha | ⟨ha, _⟩ <;> rw [ha, hp] <;> simp [passthroughs]
    · intro h9 hf
      rw [hp]
      have hsend : (case_KEY s e).2 = [Action.send_key e] := by
        unfold case_KEY
        have hk' : ¬ (iskey e.code = true) := by simp [hk]
        rw [if_neg hk', if_neg h9]
        have hfk : (func_key s.midi e.code).1 = 0 := by
          simp only [function_keys, page_select_keys, List.cons_append, List.nil_append,
            List.mem_cons, List.mem_singleton, List.not_mem_nil, or_false, not_or] at hf
          obtain ⟨c1, c2, c3, c4, c5, c6, c7, c8, c9, c10, c11⟩ := hf
          unfold func_key
          rw [if_neg c1, if_neg c2, if_neg c3, if_neg c4, if_neg c5, if_neg c6, if_neg c7,
            if_neg c8, if_neg c9, if_neg c10, if_neg c11]
        by_cases h3 : e.time.tv_sec - s.quaver_sec ≤ FUNCTION_TIMEOUT
        · rw [if_pos h3]
          dsimp only
          rw [if_neg (by simp [hfk])]
        · rw [if_neg h3]
      rw [hsend]
      simp [passthroughs]

theorem passthroughs_append (a b : List Action) :
    passthroughs (a ++ b) = passthroughs a ++ passthroughs b := by
  simp [passthroughs, List.filterMap_append]

theorem midi_messages_append (a b : List Action) :
    midi_messages (a ++ b) = midi_messages a ++ midi_messages b := by
  simp [midi_messages, List.filterMap_append]

theorem passthroughs_send_key (ev : input_event) (acts : List Action) :
    passthroughs (Action.send_key ev :: acts) = ev :: passthroughs acts := by
  simp [passthroughs, List.filterMap_cons]

theorem midi_messages_send_key (ev : input_event) (acts : List Action) :
    midi_messages (Action.send_key ev :: acts) = midi_messages acts := by
  simp [midi_messages, List.filterMap_cons]

/-- What one event does to the buffer, to the passthrough calls and to the
sequencer calls, whenever the buffer invariant holds before it. -/
theorem loop_spec (n : Nat) (nv : Int) (s : State) (e : input_event) (h : s.pending_ok)
    (s1 : State) (acts : List Action) (hl : loop (n + 2) nv s e = some (s1, acts)) :
    s1.pending_ok ∧
    (passthroughs acts ++ s1.pending).Sublist (s.pending ++ [e]) ∧
    ((s.expecting = Expecting.VELOCITY ∧ iskey e.code = false ∧ isnum e.code = true) →
      (midi_messages acts).length = 1 ∧ passthroughs acts = [] ∧
        s1.expecting = Expecting.KEY) ∧
    (¬ (s.expecting = Expecting.VELOCITY ∧ iskey e.code = false ∧ isnum e.code = true) →
      midi_messages acts = [] ∧ (passthroughs acts).length ≤ 2) ∧
    (e.code ≠ KEY_F9 → e.code ∉ function_keys →
      1 + s.pending.length =
        (passthroughs acts).length + 2 * (midi_messages acts).length + s1.pending.length) := by
  obtain ⟨s1', acts', hl', hc⟩ := loop_cases n nv s e h
  rw [hl] at hl'
  have hs1 : s1 = s1' := by injection hl' with h1; injection h1
  have hacts : acts = acts' := by injection hl' with h1; injection h1
  subst hs1 hacts
  rcases hc with ⟨hs, h1, h2⟩ | ⟨hs, hcond, h1, h2⟩ | ⟨hs, hk, hn, hexp, ev, h2⟩
  · obtain ⟨f1, f2, f3, f4⟩ := case_KEY_facts s e hs
    rw [h1, h2, pending_of_KEY s hs]
    have hlen := f3.length_le
    simp only [List.length_append, List.length_singleton] at hlen
    refine ⟨f1, by simpa using f3, ?_, ?_, ?_⟩
    · rintro ⟨hx, _⟩; rw [hs] at hx; cases hx
    · intro _; exact ⟨f2, by omega⟩
    · intro h9 hf
      have := congrArg List.length (f4 h9 hf)
      simp only [List.length_append, List.length_singleton, List.length_nil] at this
      rw [f2]
      simp only [List.length_nil]
      omega
  · obtain ⟨f1, f2, f3, f4⟩ := case_KEY_facts
      { s with expecting := Expecting.KEY, prev_iev := (send_key s.prev_iev).2 } e rfl
    rw [h1, h2, pending_of_VELOCITY s hs, passthroughs_send_key, midi_messages_send_key]
    have hlen := f3.length_le
    simp only [List.length_append, List.length_singleton] at hlen
    refine ⟨f1, ?_, ?_, ?_, ?_⟩
    · exact List.Sublist.cons₂ _ f3
    · rintro ⟨_, hk, hn⟩
      rcases hcond with hc | hc
      · rw [hk] at hc; cases hc
      · rw [hn] at hc; cases hc
    · intro _
      refine ⟨f2, ?_⟩
      simp only [List.length_cons]
      omega
    · intro h9 hf
      have := congrArg List.length (f4 h9 hf)
      simp only [List.length_append, List.length_singleton, List.length_nil] at this
      rw [f2]
      simp only [List.length_cons, List.length_nil]
      omega
  · rw [h2, pending_of_VELOCITY s hs, pending_of_KEY _ hexp]
    refine ⟨fun hx => (by rw [hexp] at hx; cases hx), ?_, ?_, ?_, ?_⟩
    · simp [passthroughs]
    · intro _; exact ⟨by simp [midi_messages], by simp [passthroughs], hexp⟩
    · intro hx; exact absurd ⟨hs, hk, hn⟩ hx
    · intro _ _; simp [passthroughs, midi_messages]

/-- A timeout sends the buffered event, if there is one, and empties the
buffer. -/
theorem select_timeout_spec (s : State) :
    (select_timeout s).1.expecting = Expecting.KEY ∧
    midi_messages (select_timeout s).2 = [] ∧
    passthroughs (select_timeout s).2 = s.pending ∧
    (select_timeout s).1.midi = s.midi ∧
    (select_timeout s).1.quaver_sec = s.quaver_sec := by
  cases hs : s.expecting with
  | KEY => simp [select_timeout, hs, State.pending, passthroughs, midi_messages]
  | VELOCITY => simp [select_timeout, hs, State.pending, passthroughs, midi_messages]

/-- Every sequence of events and timeouts is processed to the end from a
state that satisfies the buffer invariant; the invariant holds afterwards, and
the events passed through, followed by the one still buffered, are a
subsequence of the event buffered at the start followed by the events of the
sequence. -/
theorem run_spec (n : Nat) (nv : Int) (inputs : List Input) :
    ∀ s : State, s.pending_ok →
      ∃ s1 acts, run (n + 2) nv s inputs = some (s1, acts) ∧ s1.pending_ok ∧
        (passthroughs acts ++ s1.pending).Sublist (s.pending ++ input_events inputs) := by
  induction inputs with
  | nil =>
    intro s h
    exact ⟨s, [], rfl, h, by simp [passthroughs, input_events]⟩
  | cons i rest ih =>
    intro s h
    cases i with
    | event e =>
      obtain ⟨s1, acts, hl, _⟩ := loop_cases n nv s e h
      obtain ⟨f1, f2, _⟩ := loop_spec n nv s e h s1 acts hl
      obtain ⟨s2, acts2, hr, g1, g2⟩ := ih s1 f1
      refine ⟨s2, acts ++ acts2, by simp [run, step, hl, hr], g1, ?_⟩
      have hin : input_events (Input.event e :: rest) = e :: input_events rest := by
        simp [input_events, List.filterMap_cons]
      rw [passthroughs_append, hin, List.append_assoc]
      have h1 : (passthroughs acts ++ (passthroughs acts2 ++ s2.pending)).Sublist
          (passthroughs acts ++ (s1.pending ++ input_events rest)) :=
        List.Sublist.append (List.Sublist.refl _) g2
      have h2 : (passthroughs acts ++ (s1.pending ++ input_events rest)).Sublist
          (s.pending ++ e :: input_events rest) := by
        have := List.Sublist.append f2 (List.Sublist.refl (input_events rest))
        simpa [List.append_assoc] using this
      exact h1.trans h2
    | timeout =>
      obtain ⟨t1, t2, t3, _, _⟩ := select_timeout_spec s
      obtain ⟨s2, acts2, hr, g1, g2⟩ := ih (select_timeout s).1
        (fun hx => by rw [t1] at hx; cases hx)
      refine ⟨s2, (select_timeout s).2 ++ acts2, by simp [run, step, hr], g1, ?_⟩
      have hin : input_events (Input.timeout :: rest) = input_events rest := by
        simp [input_events, List.filterMap_cons]
      rw [passthroughs_append, hin, t3, List.append_assoc]
      rw [pending_of_KEY _ t1] at g2
      exact List.Sublist.append (List.Sublist.refl _) (by simpa using g2)

/-- C21 (at most one pending key): every finite sequence of events and
timeouts is processed to the end from the initial state, whatever the
uninitialised buffer holds; afterwards the decoder holds at most one buffered
event, and whenever a velocity byte is expected the buffered event passed
`iskey`, its index in `keymap` is defined and lies in 0..36, and its code, an
`int`, is one of the codes of `keylist`. -/
theorem C21_one_pending (n : Nat) (nv : Int) (p : input_event) (inputs : List Input) :
    ∃ s acts, run (n + 2) nv (State.init p) inputs = some (s, acts) ∧
      s.pending.length ≤ 1 ∧
      (s.expecting = Expecting.VELOCITY →
        iskey s.prev_iev.code = true ∧
        (∃ k, read keymap s.prev_iev.code = some k ∧ 0 ≤ k ∧ k ≤ 36) ∧
        (-2147483648 ≤ s.prev_iev.code → s.prev_iev.code ≤ 2147483647 →
          s.prev_iev.code ∈ keylist)) := by
  obtain ⟨s, acts, hr, hok, _⟩ := run_spec n nv inputs (State.init p)
    (fun hx => by cases hx)
  refine ⟨s, acts, hr, ?_, ?_⟩
  · cases hs : s.expecting <;> simp [State.pending, hs]
  · intro hs
    exact ⟨hok hs, read_keymap_of_iskey _ (hok hs),
      fun hlo hhi => (iskey_iff_mem_keylist _ hlo hhi).mp (hok hs)⟩

set_option maxRecDepth 100000 in
/-- C22, as stated, fails: page-select I with the timestamp 1.000000 s,
as the first event after the start (no quaver key before it), is taken as a
command: nothing is passed through and `prog_mode` becomes `PATCH`. -/
theorem C22_counterexample :
    loop 1 0 (State.init (key_event 0 0 0 0)) (key_event KEY_F1 1 1 0) =
      some ({ State.init (key_event 0 0 0 0) with
                midi := { MidiState.init with prog_mode := prog_modes.PATCH },
                quaver_sec := 1 }, []) := by
  decide

/-- C22 (amended): while the recorded quaver time still has its initial value
0 and a key is expected, every function key other than the quaver key
(page-select, arrow, enter) whose timestamp has a seconds field greater than
2 is passed through and leaves the whole state unchanged. -/
theorem C22_no_quaver_yet (n : Nat) (nv : Int) (s : State) (e : input_event)
    (hs : s.expecting = Expecting.KEY) (hq : s.quaver_sec = 0)
    (he : e.code ∈ function_keys) (ht : e.time.tv_sec > 2) :
    loop (n + 1) nv s e = some (s, [Action.send_key e]) ∧
    (State.init s.prev_iev).quaver_sec = 0 := by
  refine ⟨?_, rfl⟩
  rw [loop_KEY n nv s e hs, case_KEY_expired s e he (by rw [hq]; unfold FUNCTION_TIMEOUT; omega)]

/-- Witness of C22: enter at second 1000 from the initial state. -/
theorem C22_no_quaver_yet_witness :
    loop 1 0 (State.init (key_event 0 0 0 0)) (key_event KEY_ENTER 1 1000 0) =
      some (State.init (key_event 0 0 0 0), [Action.send_key (key_event KEY_ENTER 1 1000 0)]) ∧
    (State.init (State.init (key_event 0 0 0 0)).prev_iev).quaver_sec = 0 :=
  C22_no_quaver_yet 0 0 (State.init (key_event 0 0 0 0)) (key_event KEY_ENTER 1 1000 0)
    rfl rfl (by decide) (by decide)

/-- C23 (passthrough order): every finite sequence of events and timeouts is
processed to the end from the initial state, and the events handed to
`send_key`, in the order of the calls, are a subsequence of the input events
in their arrival order: no event is passed through twice, none is passed
through before an earlier event that is also passed through, and nothing is
passed through that did not arrive. -/
theorem C23_passthrough_order (n : Nat) (nv : Int) (p : input_event) (inputs : List Input) :
    ∃ s acts, run (n + 2) nv (State.init p) inputs = some (s, acts) ∧
      (passthroughs acts).Sublist (input_events inputs) := by
  obtain ⟨s, acts, hr, _, hsub⟩ := run_spec n nv inputs (State.init p)
    (fun hx => by cases hx)
  refine ⟨s, acts, hr, ?_⟩
  have h0 : (State.init p).pending = [] := pending_of_KEY _ rfl
  rw [h0, List.nil_append] at hsub
  exact (List.sublist_append_left _ _).trans hsub

/-! ## Facts about event assembly -/

theorem feed_append_singleton (a : Assembler) (recs : List input_event) (r : input_event) :
    feed a (recs ++ [r]) =
      ((assemble (feed a recs).1 r).1, (feed a recs).2 ++ (assemble (feed a recs).1 r).2.toList) := by
  simp [feed, List.foldl_append]

set_option maxRecDepth 100000 in
/-- C24, as stated, fails: after a report, the record `MSC_SCAN` with value
458756 (the scan value of the key a on a USB keyboard) followed by
`SYN_REPORT`, with no `EV_KEY` record, is assembled to a key event with value
2 whose code is 4, not 458756. -/
theorem C24_counterexample :
    feed Assembler.reset [record EV_MSC MSC_SCAN 458756 5 0, record EV_SYN SYN_REPORT 0 5 0] =
      (Assembler.reset, [key_event 4 2 5 0]) ∧ (4 : Int) ≠ 458756 := by
  decide

theorem last_key_record_concat_key (xs : List input_event) (r : input_event)
    (h : r.type = EV_KEY) : last_key_record (xs ++ [r]) = some r := by
  simp [last_key_record, List.filter_append, h]

theorem last_key_record_concat_other (xs : List input_event) (r : input_event)
    (h : r.type ≠ EV_KEY) : last_key_record (xs ++ [r]) = last_key_record xs := by
  simp [last_key_record, List.filter_append, h]

theorem last_scan_record_concat_scan (xs : List input_event) (r : input_event)
    (h : r.type = EV_MSC) (hc : r.code = MSC_SCAN) :
    last_scan_record (xs ++ [r]) = some r := by
  simp [last_scan_record, List.filter_append, h, hc]

theorem last_scan_record_concat_other (xs : List input_event) (r : input_event)
    (h : ¬ (r.type = EV_MSC ∧ r.code = MSC_SCAN)) :
    last_scan_record (xs ++ [r]) = last_scan_record xs := by
  by_cases hA : r.type = EV_MSC
  · have hB : r.code ≠ MSC_SCAN := fun hx => h ⟨hA, hx⟩
    simp [last_scan_record, List.filter_append, hB]
  · simp [last_scan_record, List.filter_append, hA]

/-- What the assembly locals hold after records among which there is no
`SYN_REPORT`; no key event is handed to the decoder. -/
theorem feed_no_report (a : Assembler) (recs : List input_event)
    (h : ∀ r ∈ recs, ¬ (r.type = EV_SYN ∧ r.code = SYN_REPORT)) :
    feed a recs =
      ({ key := match last_key_record recs with
                | some k => k.code
                | none => a.key,
         value := match last_key_record recs with
                  | some k => k.value
                  | none => a.value,
         scancode := match last_scan_record recs with
                     | some m => m.value
                     | none => a.scancode }, []) := by
  induction recs using List.reverseRecOn with
  | nil => rfl
  | append_singleton xs r ih =>
    have hxs : ∀ x ∈ xs, ¬ (x.type = EV_SYN ∧ x.code = SYN_REPORT) :=
      fun x hx => h x (List.mem_append_left _ hx)
    have hr : ¬ (r.type = EV_SYN ∧ r.code = SYN_REPORT) :=
      h r (List.mem_append_right _ (List.mem_singleton.mpr rfl))
    rw [feed_append_singleton, ih hxs]
    unfold assemble
    by_cases h1 : r.type = EV_KEY
    · have h2 : ¬ (r.type = EV_MSC ∧ r.code = MSC_SCAN) := by
        rintro ⟨h2, _⟩; rw [h1] at h2; exact absurd h2 (by decide)
      rw [last_key_record_concat_key xs r h1, last_scan_record_concat_other xs r h2,
        if_pos h1]
      rfl
    · rw [last_key_record_concat_other xs r h1, if_neg h1]
      by_cases h2 : r.type = EV_MSC
      · rw [if_pos h2]
        by_cases h3 : r.code = MSC_SCAN
        · rw [last_scan_record_concat_scan xs r h2 h3, if_pos h3]
          rfl
        · rw [last_scan_record_concat_other xs r (fun hx => h3 hx.2), if_neg h3]
          rfl
      · rw [last_scan_record_concat_other xs r (fun hx => h2 hx.1), if_neg h2]
        by_cases h3 : r.type = EV_SYN
        · have h4 : r.code ≠ SYN_REPORT := fun hx => hr ⟨h3, hx⟩
          rw [if_pos h3, if_pos h4]
          rfl
        · rw [if_neg h3]
          rfl

theorem last_key_record_mem (recs : List input_event) (k : input_event)
    (h : last_key_record recs = some k) : k ∈ recs ∧ k.type = EV_KEY := by
  unfold last_key_record at h
  have hm := List.mem_of_getLast?_eq_some h
  simpa [List.mem_filter] using hm

/-- The handling of a `SYN_REPORT`. -/
theorem assemble_report (a : Assembler) (syn : input_event)
    (hsyn : syn.type = EV_SYN ∧ syn.code = SYN_REPORT) :
    assemble a syn =
      (Assembler.reset,
       some (if a.key ≥ 0 then
               { syn with type := EV_KEY, code := u16 a.key, value := a.value }
             else
               { syn with type := EV_KEY, code := u16 a.scancode, value := 2 })) := by
  have t1 : ¬ (syn.type = EV_KEY) := by rw [hsyn.1]; decide
  have t2 : ¬ (syn.type = EV_MSC) := by rw [hsyn.1]; decide
  unfold assemble
  rw [if_neg t1, if_neg t2, if_pos hsyn.1, if_neg (not_not.mpr hsyn.2)]

/-- C24 (amended): from assembly locals whose remembered key is negative, as
after every report, records without a `SYN_REPORT` followed by a
`SYN_REPORT` hand exactly one key event to the decoder, with the time of the
report: it carries the code and value of the last `EV_KEY` record if one
arrived, and otherwise the last `MSC_SCAN` value (the remembered scan code if
none arrived) cut to the 16 bits of the code field, with value 2; afterwards
key, value and scan code are all -1.  A record that is not a `SYN_REPORT`
hands no event to the decoder: the turn of the event loop leaves the decoder
state unchanged and calls no emitter. -/
theorem C24_event_assembly (fuel : Nat) (nv : Int) (m : MainState) (a : Assembler)
    (recs : List input_event) (syn r1 : input_event)
    (ha : a.key < 0)
    (hsyn : syn.type = EV_SYN ∧ syn.code = SYN_REPORT)
    (hrecs : ∀ r ∈ recs, ¬ (r.type = EV_SYN ∧ r.code = SYN_REPORT))
    (htyped : ∀ r ∈ recs, 0 ≤ r.code ∧ r.code < 65536)
    (hr1 : ¬ (r1.type = EV_SYN ∧ r1.code = SYN_REPORT)) :
    feed a (recs ++ [syn]) = (Assembler.reset, [spec_assembled a recs syn]) ∧
    Assembler.reset = { key := -1, value := -1, scancode := -1 } ∧
    (assemble m.asm r1).2 = none ∧
    main_turn fuel nv m (Ready.record r1) =
      some ({ m with asm := (assemble m.asm r1).1 }, []) := by
  have hnone : (assemble m.asm r1).2 = none := by
    unfold assemble
    by_cases h1 : r1.type = EV_KEY
    · rw [if_pos h1]
    · rw [if_neg h1]
      by_cases h2 : r1.type = EV_MSC
      · rw [if_pos h2]
      · rw [if_neg h2]
        by_cases h3 : r1.type = EV_SYN
        · rw [if_pos h3, if_pos (fun hx => hr1 ⟨h3, hx⟩)]
        · rw [if_neg h3]
  refine ⟨?_, rfl, hnone, ?_⟩
  · rw [feed_append_singleton, feed_no_report a recs hrecs, assemble_report _ syn hsyn]
    cases hk : last_key_record recs with
    | none =>
      have hneg : ¬ (a.key ≥ 0) := by omega
      simp only [spec_assembled, hk]
      rw [if_neg hneg]
      rfl
    | some k =>
      obtain ⟨hmem, _⟩ := last_key_record_mem recs k hk
      obtain ⟨h0, h16⟩ := htyped k hmem
      have hu : u16 k.code = k.code := by unfold u16; omega
      simp only [spec_assembled, hk]
      rw [if_pos h0, hu]
      rfl
  · simp [main_turn, hnone]

/-- Witness of C24: after a report, a scan record, a key record for the key a
and a report. -/
theorem C24_event_assembly_witness :
    feed Assembler.reset
        ([record EV_MSC MSC_SCAN 30 5 0, record EV_KEY KEY_A 1 5 0] ++
          [record EV_SYN SYN_REPORT 0 5 0]) =
      (Assembler.reset,
       [spec_assembled Assembler.reset
          [record EV_MSC MSC_SCAN 30 5 0, record EV_KEY KEY_A 1 5 0]
          (record EV_SYN SYN_REPORT 0 5 0)]) ∧
    Assembler.reset = { key := -1, value := -1, scancode := -1 } ∧
    (assemble ({ dec := State.init (key_event 0 0 0 0), asm := Assembler.reset } :
        MainState).asm (record EV_MSC MSC_SCAN 30 5 0)).2 = none ∧
    main_turn 2 0 { dec := State.init (key_event 0 0 0 0), asm := Assembler.reset }
        (Ready.record (record EV_MSC MSC_SCAN 30 5 0)) =
      some ({ ({ dec := State.init (key_event 0 0 0 0), asm := Assembler.reset } :
                MainState) with
                asm := (assemble ({ dec := State.init (key_event 0 0 0 0),
                                    asm := Assembler.reset } : MainState).asm
                          (record EV_MSC MSC_SCAN 30 5 0)).1 }, []) :=
  C24_event_assembly 2 0 { dec := State.init (key_event 0 0 0 0), asm := Assembler.reset }
    Assembler.reset [record EV_MSC MSC_SCAN 30 5 0, record EV_KEY KEY_A 1 5 0]
    (record EV_SYN SYN_REPORT 0 5 0) (record EV_MSC MSC_SCAN 30 5 0)
    (by decide) (by decide) (by decide) (by decide) (by decide)

set_option maxRecDepth 100000 in
/-- C26, as stated, fails: with the key a of timestamp 5.000000 s pending,
the timeout handed to `select` is 15000 microseconds, whereas at 5.005000 s
only 10000 microseconds remain until the deadline of the pending key; and a
scan record read at 5.005000 s leaves the decoder as it is, so the next wait
again lasts up to 15000 microseconds. -/
theorem C26_counterexample :
    (pending_state MidiState.init KEY_A).prev_iev.time = { tv_sec := 5, tv_usec := 0 } ∧
    remaining_usec (pending_state MidiState.init KEY_A).prev_iev.time
      { tv_sec := 5, tv_usec := 5000 } = 10000 ∧
    select_tv (pending_state MidiState.init KEY_A) = some { tv_sec := 0, tv_usec := 15000 } ∧
    main_turn 2 0 { dec := pending_state MidiState.init KEY_A, asm := Assembler.reset }
        (Ready.record (record EV_MSC MSC_SCAN 18 5 5000)) =
      some ({ dec := pending_state MidiState.init KEY_A,
              asm := { key := -1, value := -1, scancode := 18 } }, []) := by
  decide

/-- C26 (amended): the wait of the event loop has no timeout while a key is
expected; while a velocity byte is expected its timeout is the full
`KEY_TIMEOUT` of 15000 microseconds, counted from the call and whatever the
timestamp of the pending event.  A record that is not a `SYN_REPORT` and is
read while an event is pending leaves the decoder unchanged and calls no
emitter, so the wait that follows has the full timeout again. -/
theorem C26_wait_timeout (fuel : Nat) (nv : Int) (m : MainState) (r : input_event)
    (hr : ¬ (r.type = EV_SYN ∧ r.code = SYN_REPORT)) :
    select_tv m.dec =
      (match m.dec.expecting with
       | Expecting.KEY => none
       | Expecting.VELOCITY => some { tv_sec := 0, tv_usec := 15000 }) ∧
    (∃ m1, main_turn fuel nv m (Ready.record r) = some (m1, []) ∧ m1.dec = m.dec ∧
      select_tv m1.dec = select_tv m.dec) := by
  constructor
  · cases hs : m.dec.expecting <;> simp [select_tv, hs, KEY_TIMEOUT]
  · have hnone : (assemble m.asm r).2 = none := by
      unfold assemble
      by_cases h1 : r.type = EV_KEY
      · rw [if_pos h1]
      · rw [if_neg h1]
        by_cases h2 : r.type = EV_MSC
        · rw [if_pos h2]
        · rw [if_neg h2]
          by_cases h3 : r.type = EV_SYN
          · rw [if_pos h3, if_pos (fun hx => hr ⟨h3, hx⟩)]
          · rw [if_neg h3]
    exact ⟨{ m with asm := (assemble m.asm r).1 }, by simp [main_turn, hnone], rfl, rfl⟩

/-- Witness of C26: the key a pending and a scan record. -/
theorem C26_wait_timeout_witness :
    select_tv ({ dec := pending_state MidiState.init KEY_A, asm := Assembler.reset } :
        MainState).dec =
      (match ({ dec := pending_state MidiState.init KEY_A, asm := Assembler.reset } :
          MainState).dec.expecting with
       | Expecting.KEY => none
       | Expecting.VELOCITY => some { tv_sec := 0, tv_usec := 15000 }) ∧
    (∃ m1, main_turn 2 0 { dec := pending_state MidiState.init KEY_A, asm := Assembler.reset }
        (Ready.record (record EV_MSC MSC_SCAN 18 5 5000)) = some (m1, []) ∧
      m1.dec = ({ dec := pending_state MidiState.init KEY_A, asm := Assembler.reset } :
        MainState).dec ∧
      select_tv m1.dec =
        select_tv ({ dec := pending_state MidiState.init KEY_A, asm := Assembler.reset } :
          MainState).dec) :=
  C26_wait_timeout 2 0 { dec := pending_state MidiState.init KEY_A, asm := Assembler.reset }
    (record EV_MSC MSC_SCAN 18 5 5000) (by decide)

/-! ## Facts about the note messages -/

theorem nummap_entries_le : ∀ v ∈ nummap, v ≤ 7 := by decide

/-- A code that passes `isnum` has a velocity level, which lies in 0..7. -/
theorem read_nummap_range_of_isnum (x : Int) (h : isnum x = true) :
    ∃ v, read nummap x = some v ∧ 0 ≤ v ∧ v ≤ 7 := by
  unfold isnum at h
  split at h
  · exact Bool.noConfusion h
  · cases hr : read nummap x with
    | none => rw [hr] at h; exact Bool.noConfusion h
    | some v =>
      rw [hr] at h
      refine ⟨v, rfl, by simpa using h, ?_⟩
      apply nummap_entries_le
      unfold read at hr
      split at hr
      · exact Option.noConfusion hr
      · exact List.getElem?_mem hr

/-- The velocity computed from a level 0..7 lies in 0..127. -/
theorem velocity_range (nv v : Int) (h0 : 0 ≤ v) (h7 : v ≤ 7) :
    0 ≤ (if nv ≠ 0 then (64 : Int) else if v = 0 then 0 else Int.tdiv 127 v) ∧
    (if nv ≠ 0 then (64 : Int) else if v = 0 then 0 else Int.tdiv 127 v) ≤ 127 := by
  by_cases hnv : nv ≠ 0
  · rw [if_pos hnv]; decide
  · rw [if_neg hnv]
    have hc : v = 0 ∨ v = 1 ∨ v = 2 ∨ v = 3 ∨ v = 4 ∨ v = 5 ∨ v = 6 ∨ v = 7 := by omega
    rcases hc with h | h | h | h | h | h | h | h <;> subst h <;> decide

/-- A sequencer event in a list of emitter calls is one of its sequencer
events. -/
theorem mem_midi_messages (acts : List Action) (ev : snd_seq_event)
    (h : Action.send_event ev ∈ acts) : ev ∈ midi_messages acts := by
  unfold midi_messages
  rw [List.mem_filterMap]
  exact ⟨_, h, rfl⟩

/-- The note-on a resolution sends, if it sends one, has its note in
17..101, its velocity in 0..127 and its channel in 0..15. -/
theorem resolve_noteon_range (nv : Int) (s : State) (e : input_event)
    (hr : s.midi.in_range) (hk : iskey s.prev_iev.code = true) (hn : isnum e.code = true)
    (s1 : State) (acts : List Action) (hres : resolve nv s e = some (s1, acts))
    (ch note vel : Int)
    (hmem : Action.send_event (snd_seq_event.noteon ch note vel) ∈ acts) :
    (17 ≤ note ∧ note ≤ 101) ∧ (0 ≤ vel ∧ vel ≤ 127) ∧ (0 ≤ ch ∧ ch ≤ 15) := by
  obtain ⟨k, hk1, hk0, hk36⟩ := read_keymap_of_iskey _ hk
  obtain ⟨v, hv, hv0, hv7⟩ := read_nummap_range_of_isnum _ hn
  have hc : 0 ≤ s.midi.channel ∧ s.midi.channel ≤ 15 := hr.1
  have ho : 3 ≤ s.midi.octave ∧ s.midi.octave ≤ 7 := hr.2.1
  have hvel := velocity_range nv v hv0 hv7
  cases hm : s.midi.prog_mode with
  | PATCH =>
    simp only [resolve, hm, hk1, Option.map_some', Option.some.injEq, Prod.mk.injEq] at hres
    rw [← hres.2] at hmem
    simp at hmem
  | BANK =>
    simp only [resolve, hm, hk1, Option.map_some', Option.some.injEq, Prod.mk.injEq] at hres
    rw [← hres.2] at hmem
    simp at hmem
  | MUSIC =>
    simp only [resolve, hm, hk1, hv, Option.map_some', Option.some_bind, Option.some.injEq,
      Prod.mk.injEq] at hres
    rw [← hres.2] at hmem
    simp only [List.mem_singleton, Action.send_event.injEq, snd_seq_event.noteon.injEq] at hmem
    obtain ⟨h1, h2, h3⟩ := hmem
    subst h1 h2 h3
    exact ⟨by omega, hvel, hc⟩
  | CHANNEL =>
    simp only [resolve, hm, hk1, hv, Option.map_some', Option.some_bind, Option.some.injEq,
      Prod.mk.injEq] at hres
    rw [← hres.2] at hmem
    simp only [List.mem_singleton, Action.send_event.injEq, snd_seq_event.noteon.injEq] at hmem
    obtain ⟨h1, h2, h3⟩ := hmem
    subst h1 h2 h3
    exact ⟨by omega, hvel, hc⟩

/-- C27 (valid note messages): from every state with the MIDI state in range
(octave 3..7, channel 0..15) and a key in the buffer when a velocity byte is
expected, the decoder returns on every event, and every note-on among its
emitter calls has a note number in 17..101, hence in 0..127, a velocity in
0..127 and a channel in 0..15; for all key indices k in 0..36 and octaves in
3..7 the value `k - 19 + 12 * octave` lies in 17..101. -/
theorem C27_valid_note (n : Nat) (nv : Int) (s : State) (e : input_event) (k o : Int)
    (h : s.well_formed) (hk0 : 0 ≤ k) (hk36 : k ≤ 36) (ho3 : octave_min ≤ o)
    (ho7 : o ≤ octave_max) :
    (∃ s1 acts, loop (n + 2) nv s e = some (s1, acts) ∧
      ∀ ch note vel : Int, Action.send_event (snd_seq_event.noteon ch note vel) ∈ acts →
        (17 ≤ note ∧ note ≤ 101) ∧ (0 ≤ vel ∧ vel ≤ 127) ∧ (0 ≤ ch ∧ ch ≤ 15)) ∧
    (17 ≤ (k - 19) + 12 * o ∧ (k - 19) + 12 * o ≤ 101) := by
  refine ⟨?_, by unfold octave_min at ho3; unfold octave_max at ho7; omega⟩
  obtain ⟨s1, acts, hl, hc⟩ := loop_cases n nv s e h.2
  refine ⟨s1, acts, hl, ?_⟩
  intro ch note vel hmem
  have hmidi := mem_midi_messages acts _ hmem
  rcases hc with ⟨hs, _, h2⟩ | ⟨hs, _, _, h2⟩ | ⟨hs, hk, hn, _, _⟩
  · rw [h2, (case_KEY_facts s e hs).2.1] at hmidi
    cases hmidi
  · rw [h2, midi_messages_send_key, (case_KEY_facts _ e rfl).2.1] at hmidi
    cases hmidi
  · rw [loop_VELOCITY_resolve (n + 1) nv s e hs hk hn] at hl
    exact resolve_noteon_range nv { s with expecting := Expecting.KEY } e h.1 (h.2 hs) hn
      s1 acts hl ch note vel hmem

/-- Witness of C27: the highest key (index 36) pending at octave 7, then the
symbol 1. -/
theorem C27_valid_note_witness :
    (∃ s1 acts,
      loop 2 0 (pending_state { MidiState.init with octave := 7 } KEY_DOT)
        (key_event KEY_1 1 5 2500) = some (s1, acts) ∧
      ∀ ch note vel : Int, Action.send_event (snd_seq_event.noteon ch note vel) ∈ acts →
        (17 ≤ note ∧ note ≤ 101) ∧ (0 ≤ vel ∧ vel ≤ 127) ∧ (0 ≤ ch ∧ ch ≤ 15)) ∧
    (17 ≤ ((36 : Int) - 19) + 12 * 7 ∧ ((36 : Int) - 19) + 12 * 7 ≤ 101) :=
  C27_valid_note 0 0 (pending_state { MidiState.init with octave := 7 } KEY_DOT)
    (key_event KEY_1 1 5 2500) 36 7 (by decide) (by decide) (by decide) (by decide)
    (by decide)

/-- C28 (when a sequencer event is sent): for an event whose code is an
`int`, processed from a state that satisfies the buffer invariant, the
decoder returns, and it calls `send_event` if and only if a velocity byte is
expected and the code passes `isnum`; in that case it calls `send_event`
exactly once, does not call `send_key` and ends expecting a key; in every
other case it does not call `send_event` and calls `send_key` at most twice.
A timeout never calls `send_event` and calls `send_key` at most once. -/
theorem C28_midi_iff (n : Nat) (nv : Int) (s : State) (e : input_event)
    (h : s.pending_ok) (hlo : -2147483648 ≤ e.code) (hhi : e.code ≤ 2147483647) :
    (∃ s1 acts, loop (n + 2) nv s e = some (s1, acts) ∧
      (midi_messages acts ≠ [] ↔ (s.expecting = Expecting.VELOCITY ∧ isnum e.code = true)) ∧
      ((s.expecting = Expecting.VELOCITY ∧ isnum e.code = true) →
        (midi_messages acts).length = 1 ∧ passthroughs acts = [] ∧
          s1.expecting = Expecting.KEY) ∧
      (¬ (s.expecting = Expecting.VELOCITY ∧ isnum e.code = true) →
        midi_messages acts = [] ∧ (passthroughs acts).length ≤ 2)) ∧
    (midi_messages (select_timeout s).2 = [] ∧
      (passthroughs (select_timeout s).2).length ≤ 1) := by
  have hexcl : isnum e.code = true → iskey e.code = false := fun hn =>
    iskey_of_mem_numlist _ ((isnum_iff_mem_numlist _ hlo hhi).mp hn)
  have hiff : (s.expecting = Expecting.VELOCITY ∧ iskey e.code = false ∧ isnum e.code = true) ↔
      (s.expecting = Expecting.VELOCITY ∧ isnum e.code = true) :=
    ⟨fun hx => ⟨hx.1, hx.2.2⟩, fun hx => ⟨hx.1, hexcl hx.2, hx.2⟩⟩
  constructor
  · obtain ⟨s1, acts, hl, _⟩ := loop_cases n nv s e h
    obtain ⟨_, _, f3, f4, _⟩ := loop_spec n nv s e h s1 acts hl
    rw [hiff] at f3 f4
    refine ⟨s1, acts, hl, ?_, f3, f4⟩
    constructor
    · intro hne
      by_contra hcon
      exact hne (f4 hcon).1
    · intro hx hnil
      have := (f3 hx).1
      rw [hnil] at this
      cases this
  · obtain ⟨_, t2, t3, _, _⟩ := select_timeout_spec s
    refine ⟨t2, ?_⟩
    rw [t3]
    cases hs : s.expecting <;> simp [State.pending, hs]

/-- Witness of C28: the key a pending and the symbol 4. -/
theorem C28_midi_iff_witness :
    (∃ s1 acts,
      loop 2 0 (pending_state MidiState.init KEY_A) (key_event KEY_4 1 5 2500) =
        some (s1, acts) ∧
      (midi_messages acts ≠ [] ↔
        ((pending_state MidiState.init KEY_A).expecting = Expecting.VELOCITY ∧
          isnum (key_event KEY_4 1 5 2500).code = true)) ∧
      (((pending_state MidiState.init KEY_A).expecting = Expecting.VELOCITY ∧
          isnum (key_event KEY_4 1 5 2500).code = true) →
        (midi_messages acts).length = 1 ∧ passthroughs acts = [] ∧
          s1.expecting = Expecting.KEY) ∧
      (¬ ((pending_state MidiState.init KEY_A).expecting = Expecting.VELOCITY ∧
          isnum (key_event KEY_4 1 5 2500).code = true) →
        midi_messages acts = [] ∧ (passthroughs acts).length ≤ 2)) ∧
    (midi_messages (select_timeout (pending_state MidiState.init KEY_A)).2 = [] ∧
      (passthroughs (select_timeout (pending_state MidiState.init KEY_A)).2).length ≤ 1) :=
  C28_midi_iff 0 0 (pending_state MidiState.init KEY_A) (key_event KEY_4 1 5 2500)
    (by decide) (by decide) (by decide)

/-- Processing a sequence of inputs in two parts. -/
theorem run_append (fuel : Nat) (nv : Int) (a b : List Input) :
    ∀ s : State, run fuel nv s (a ++ b) =
      (run fuel nv s a).bind fun r =>
        (run fuel nv r.1 b).map fun q => (q.1, r.2 ++ q.2) := by
  induction a with
  | nil =>
    intro s
    cases hb : run fuel nv s b <;> simp [run, hb]
  | cons i rest ih =>
    intro s
    simp only [List.cons_append, run]
    cases hstep : step fuel nv s i with
    | none => simp
    | some r =>
      cases h1 : run fuel nv r.1 rest with
      | none => simp [ih r.1, h1]
      | some q =>
        cases h2 : run fuel nv q.1 b with
        | none => simp [ih r.1, h1, h2]
        | some w => simp [ih r.1, h1, h2, List.append_assoc]

/-- Events that are neither the quaver key nor a function key are all
accounted for: each is passed through, consumed in a pair by one sequencer
event, or still buffered. -/
theorem run_count (n : Nat) (nv : Int) (es : List input_event) :
    ∀ s : State, s.pending_ok →
      (∀ e ∈ es, e.code ≠ KEY_F9 ∧ e.code ∉ function_keys) →
      ∃ s1 acts, run (n + 2) nv s (es.map Input.event) = some (s1, acts) ∧ s1.pending_ok ∧
        es.length + s.pending.length =
          (passthroughs acts).length + 2 * (midi_messages acts).length + s1.pending.length := by
  induction es with
  | nil =>
    intro s h _
    exact ⟨s, [], rfl, h, by simp [passthroughs, midi_messages]⟩
  | cons e rest ih =>
    intro s h hes
    obtain ⟨s1, acts, hl, _⟩ := loop_cases n nv s e h
    obtain ⟨f1, _, _, _, f5⟩ := loop_spec n nv s e h s1 acts hl
    have he := hes e (List.mem_cons_self _ _)
    have hcount := f5 he.1 he.2
    obtain ⟨s2, acts2, hr, g1, g2⟩ := ih s1 f1
      (fun x hx => hes x (List.mem_cons_of_mem _ hx))
    refine ⟨s2, acts ++ acts2, by simp [run, step, hl, hr], g1, ?_⟩
    rw [passthroughs_append, midi_messages_append]
    simp only [List.length_cons, List.length_append]
    omega

/-- C29 (no event lost or duplicated): for every finite sequence of events
none of which is the quaver key or a function key (page-select, arrow,
enter), processed from a state that expects a key and followed by one
timeout, the decoder returns, the number of input events equals the number
of `send_key` calls plus twice the number of `send_event` calls, and the
decoder ends expecting a key. -/
theorem C29_no_loss (n : Nat) (nv : Int) (s : State) (es : List input_event)
    (hs : s.expecting = Expecting.KEY)
    (hes : ∀ e ∈ es, e.code ≠ KEY_F9 ∧ e.code ∉ function_keys) :
    ∃ s1 acts,
      run (n + 2) nv s (es.map Input.event ++ [Input.timeout]) = some (s1, acts) ∧
      es.length = (passthroughs acts).length + 2 * (midi_messages acts).length ∧
      s1.expecting = Expecting.KEY := by
  obtain ⟨s1, acts, hr, _, hcount⟩ := run_count n nv es s
    (fun hx => by rw [hs] at hx; cases hx) hes
  obtain ⟨t1, t2, t3, _, _⟩ := select_timeout_spec s1
  refine ⟨(select_timeout s1).1, acts ++ (select_timeout s1).2, ?_, ?_, t1⟩
  · rw [run_append, hr]
    simp [run, step]
  · rw [passthroughs_append, midi_messages_append, t2, t3]
    rw [pending_of_KEY s hs] at hcount
    simp only [List.length_append, List.length_nil] at hcount ⊢
    omega

/-- Witness of C29: the keys a and b, the symbol 3, the space key (code 57)
and the key c, then the timeout: five events, three passed through and one
note. -/
theorem C29_no_loss_witness :
    ∃ s1 acts,
      run 2 0 (State.init (key_event 0 0 0 0))
        ([key_event KEY_A 1 5 0, key_event KEY_B 1 5 10, key_event KEY_3 1 5 20,
          key_event 57 1 5 30, key_event KEY_C 1 5 40].map Input.event ++
          [Input.timeout]) = some (s1, acts) ∧
      [key_event KEY_A 1 5 0, key_event KEY_B 1 5 10, key_event KEY_3 1 5 20,
        key_event 57 1 5 30, key_event KEY_C 1 5 40].length =
        (passthroughs acts).length + 2 * (midi_messages acts).length ∧
      s1.expecting = Expecting.KEY :=
  C29_no_loss 0 0 (State.init (key_event 0 0 0 0))
    [key_event KEY_A 1 5 0, key_event KEY_B 1 5 10, key_event KEY_3 1 5 20,
      key_event 57 1 5 30, key_event KEY_C 1 5 40] rfl (by decide)

/-! ## Facts about `CHANNEL` mode -/

/-- Outside the page-select keys `func_key` does not leave `CHANNEL` mode. -/
theorem func_key_keeps_channel (g : MidiState) (x : Int) (hx : x ∉ page_select_keys)
    (hm : g.prog_mode = prog_modes.CHANNEL) :
    (func_key g x).2.prog_mode = prog_modes.CHANNEL := by
  simp only [page_select_keys, List.mem_cons, List.mem_singleton, List.not_mem_nil, or_false,
    not_or] at hx
  obtain ⟨c1, c2, c3, c4, c5, c6, c7, c8⟩ := hx
  unfold func_key
  rw [if_neg c1, if_neg c2, if_neg c3, if_neg c4, if_neg c5, if_neg c6, if_neg c7, if_neg c8,
    if_pos hm, if_pos hm]
  by_cases c9 : x = KEY_KP4
  · rw [if_pos c9]; exact hm
  · rw [if_neg c9]
    by_cases c10 : x = KEY_KP6
    · rw [if_pos c10]; exact hm
    · rw [if_neg c10]
      by_cases c11 : x = KEY_ENTER
      · rw [if_pos c11]
      · rw [if_neg c11]; exact hm

/-- `case KEY:` leaves `CHANNEL` mode only on the quaver key or a page-select
key. -/
theorem case_KEY_keeps_channel (s : State) (e : input_event) (h9 : e.code ≠ KEY_F9)
    (hp : e.code ∉ page_select_keys) (hm : s.midi.prog_mode = prog_modes.CHANNEL) :
    (case_KEY s e).1.midi.prog_mode = prog_modes.CHANNEL := by
  unfold case_KEY
  by_cases h1 : iskey e.code = true
  · rw [if_pos h1]; exact hm
  · rw [if_neg h1, if_neg h9]
    by_cases h3 : e.time.tv_sec - s.quaver_sec ≤ FUNCTION_TIMEOUT
    · rw [if_pos h3]
      dsimp only
      by_cases h4 : (func_key s.midi e.code).1 ≠ 0
      · rw [if_pos h4]; exact func_key_keeps_channel s.midi e.code hp hm
      · rw [if_neg h4]; exact func_key_keeps_channel s.midi e.code hp hm
    · rw [if_neg h3]; exact hm

/-- A resolution in `CHANNEL` mode stays in `CHANNEL` mode. -/
theorem resolve_keeps_channel (nv : Int) (s : State) (e : input_event)
    (hm : s.midi.prog_mode = prog_modes.CHANNEL) (s1 : State) (acts : List Action)
    (hres : resolve nv s e = some (s1, acts)) :
    s1.midi.prog_mode = prog_modes.CHANNEL := by
  unfold resolve at hres
  rw [hm] at hres
  dsimp only at hres
  cases hk : read keymap s.prev_iev.code with
  | none => rw [hk] at hres; cases hres
  | some k =>
    rw [hk] at hres
    cases hv : read nummap e.code with
    | none => rw [hv] at hres; cases hres
    | some v =>
      rw [hv] at hres
      simp only [Option.some_bind, Option.map_some', Option.some.injEq, Prod.mk.injEq] at hres
      rw [← hres.1]
      exact hm

/-- C30 (channel mode): in `CHANNEL` mode a pending music key followed by a
velocity symbol sends exactly the note-on that `MUSIC` mode sends, with note
`keyIndex - 19 + 12 * octave` and the mapped velocity, and `prog_mode` stays
`CHANNEL`.  From a state in `CHANNEL` mode the decoder returns on every event
whose code is neither the quaver key nor a page-select key with `prog_mode`
still `CHANNEL`, and so does a timeout: only the quaver key or a page-select
key ends `CHANNEL` mode. -/
theorem C30_channel_mode (n : Nat) (nv : Int) (s s2 : State) (V e : input_event)
    (hs : s.expecting = Expecting.VELOCITY) (hm : s.midi.prog_mode = prog_modes.CHANNEL)
    (hP : s.prev_iev.code ∈ keylist) (hV : V.code ∈ numlist)
    (hm2 : s2.midi.prog_mode = prog_modes.CHANNEL) (hok : s2.pending_ok)
    (h9 : e.code ≠ KEY_F9) (hp : e.code ∉ page_select_keys) :
    (loop (n + 1) nv s V =
        some ({ s with prev_iev := V, expecting := Expecting.KEY },
          [Action.send_event (snd_seq_event.noteon s.midi.channel
            ((keyIndex s.prev_iev.code - 19) + 12 * s.midi.octave)
            (if nv ≠ 0 then 64
             else if velocityLevel V.code = 0 then 0
             else Int.tdiv 127 (velocityLevel V.code)))]) ∧
      loop (n + 1) nv { s with midi := { s.midi with prog_mode := prog_modes.MUSIC } } V =
        some ({ s with midi := { s.midi with prog_mode := prog_modes.MUSIC },
                       prev_iev := V, expecting := Expecting.KEY },
          [Action.send_event (snd_seq_event.noteon s.midi.channel
            ((keyIndex s.prev_iev.code - 19) + 12 * s.midi.octave)
            (if nv ≠ 0 then 64
             else if velocityLevel V.code = 0 then 0
             else Int.tdiv 127 (velocityLevel V.code)))])) ∧
    (∃ s1 acts, loop (n + 2) nv s2 e = some (s1, acts) ∧
      s1.midi.prog_mode = prog_modes.CHANNEL) ∧
    (select_timeout s2).1.midi.prog_mode = prog_modes.CHANNEL := by
  refine ⟨⟨?_, ?_⟩, ?_, ?_⟩
  · rw [loop_VELOCITY_resolve n nv s V hs (iskey_of_mem_numlist _ hV)
      (isnum_of_mem_numlist _ hV)]
    exact resolve_note nv { s with expecting := Expecting.KEY } V prog_modes.CHANNEL hm
      (by decide) (by decide) hP hV
  · have hs1 : ∀ g : MidiState, ({ s with midi := g } : State).expecting = Expecting.VELOCITY :=
      fun _ => hs
    rw [loop_VELOCITY_resolve n nv _ V (hs1 _) (iskey_of_mem_numlist _ hV)
      (isnum_of_mem_numlist _ hV)]
    exact resolve_note nv
      { s with midi := { s.midi with prog_mode := prog_modes.MUSIC },
               expecting := Expecting.KEY } V prog_modes.MUSIC rfl
      (by decide) (by decide) hP hV
  · obtain ⟨s1, acts, hl, hc⟩ := loop_cases n nv s2 e hok
    refine ⟨s1, acts, hl, ?_⟩
    rcases hc with ⟨_, h1, _⟩ | ⟨_, _, h1, _⟩ | ⟨hs2, hk, hn, _, _⟩
    · rw [h1]; exact case_KEY_keeps_channel s2 e h9 hp hm2
    · rw [h1]; exact case_KEY_keeps_channel _ e h9 hp hm2
    · rw [loop_VELOCITY_resolve (n + 1) nv s2 e hs2 hk hn] at hl
      exact resolve_keeps_channel nv { s2 with expecting := Expecting.KEY } e hm2 s1 acts hl
  · rw [(select_timeout_spec s2).2.2.2.1]
    exact hm2

/-- Witness of C30: in `CHANNEL` mode the key T is pending and the symbol 2
arrives; and in `CHANNEL` mode the right arrow arrives while a key is
expected. -/
theorem C30_channel_mode_witness :
    (loop 1 0 (pending_state { MidiState.init with prog_mode := prog_modes.CHANNEL } KEY_T)
          (key_event KEY_2 1 5 2500) =
        some ({ pending_state { MidiState.init with prog_mode := prog_modes.CHANNEL } KEY_T with
                  prev_iev := key_event KEY_2 1 5 2500, expecting := Expecting.KEY },
          [Action.send_event (snd_seq_event.noteon
            (pending_state { MidiState.init with prog_mode := prog_modes.CHANNEL }
              KEY_T).midi.channel
            ((keyIndex (pending_state { MidiState.init with prog_mode := prog_modes.CHANNEL }
                KEY_T).prev_iev.code - 19) +
              12 * (pending_state { MidiState.init with prog_mode := prog_modes.CHANNEL }
                KEY_T).midi.octave)
            (if (0 : Int) ≠ 0 then 64
             else if velocityLevel (key_event KEY_2 1 5 2500).code = 0 then 0
             else Int.tdiv 127 (velocityLevel (key_event KEY_2 1 5 2500).code)))]) ∧
      loop 1 0
          { pending_state { MidiState.init with prog_mode := prog_modes.CHANNEL } KEY_T with
              midi := { (pending_state { MidiState.init with prog_mode := prog_modes.CHANNEL }
                  KEY_T).midi with prog_mode := prog_modes.MUSIC } }
          (key_event KEY_2 1 5 2500) =
        some ({ pending_state { MidiState.init with prog_mode := prog_modes.CHANNEL } KEY_T with
                  midi := { (pending_state { MidiState.init with
                      prog_mode := prog_modes.CHANNEL } KEY_T).midi with
                    prog_mode := prog_modes.MUSIC },
                  prev_iev := key_event KEY_2 1 5 2500, expecting := Expecting.KEY },
          [Action.send_event (snd_seq_event.noteon
            (pending_state { MidiState.init with prog_mode := prog_modes.CHANNEL }
              KEY_T).midi.channel
            ((keyIndex (pending_state { MidiState.init with prog_mode := prog_modes.CHANNEL }
                KEY_T).prev_iev.code - 19) +
              12 * (pending_state { MidiState.init with prog_mode := prog_modes.CHANNEL }
                KEY_T).midi.octave)
            (if (0 : Int) ≠ 0 then 64
             else if velocityLevel (key_event KEY_2 1 5 2500).code = 0 then 0
             else Int.tdiv 127 (velocityLevel (key_event KEY_2 1 5 2500).code)))])) ∧
    (∃ s1 acts,
      loop 2 0 (key_state { MidiState.init with prog_mode := prog_modes.CHANNEL })
        (key_event KEY_KP6 1 1 0) = some (s1, acts) ∧
      s1.midi.prog_mode = prog_modes.CHANNEL) ∧
    (select_timeout (key_state { MidiState.init with prog_mode := prog_modes.CHANNEL })).1.midi.prog_mode
      = prog_modes.CHANNEL :=
  C30_channel_mode 0 0
    (pending_state { MidiState.init with prog_mode := prog_modes.CHANNEL } KEY_T)
    (key_state { MidiState.init with prog_mode := prog_modes.CHANNEL })
    (key_event KEY_2 1 5 2500) (key_event KEY_KP6 1 1 0)
    rfl rfl (by decide) (by decide) rfl (by decide) (by decide) (by decide)

end Monterey

namespace Mouse

/-- C25 (mapping numbers above 127): for the argument `n:1:200`, of which
`sscanf` matches three items (the letter n, channel 1, number 200),
`parse_map` returns with the note number 200 stored on channel 0 and writes
no message about the number; for the argument `c:1:64` it stores controller
64 on channel 0; a channel outside 1..16 ends the program. -/
theorem C25_number_not_checked :
    parse_map map_1 { items := 3, t := 'n', channel := 1, number := 200 } =
      Outcome.returned { ev_type := SND_SEQ_EVENT_NOTEON, number := 200, channel := 0 }
        [Message.applying_mapping] ∧
    parse_map map_1 { items := 3, t := 'c', channel := 1, number := 64 } =
      Outcome.returned { ev_type := SND_SEQ_EVENT_CONTROLLER, number := 64, channel := 0 }
        [Message.applying_mapping] ∧
    parse_map map_1 { items := 3, t := 'n', channel := 17, number := 36 } =
      Outcome.exited 1 [Message.applying_mapping, Message.channel_range] := by
  decide

end Mouse
